import Mathlib

/-!
Verification of the OpenCode configuration-sync engine
(`src-tauri/src/proxy/opencode_sync.rs`).

JSON values are embedded as an inductive type; `serde_json::Map` is embedded
as an association list with first-occurrence lookup, replace-in-place insert
and first-occurrence removal (a real `serde_json` map never holds duplicate
keys, so these agree with map semantics; insertion order is kept, which is
the `preserve_order` representation — map equality claims are stated at the
lookup level or proved at this finer representation, which implies them).
-/

set_option autoImplicit false

namespace OpencodeSync

/-- Shallow embedding of `serde_json::Value`; numbers are embedded as `Int`
(the engine itself only produces integral numbers). -/
inductive Json where
  | null : Json
  | bool (b : Bool) : Json
  | num (n : Int) : Json
  | str (s : String) : Json
  | arr (elems : List Json) : Json
  | obj (fields : List (String × Json)) : Json

/-- First-occurrence lookup in an association list (`Map::get`). -/
def alGet {α : Type} (k : String) : List (String × α) → Option α
  | [] => none
  | (k1, v) :: rest => if k1 = k then some v else alGet k rest

/-- Replace-in-place insert (`Map::insert`): the first occurrence of the key
is overwritten; a new key is appended. -/
def alSet {α : Type} (k : String) (v : α) : List (String × α) → List (String × α)
  | [] => [(k, v)]
  | (k1, v1) :: rest => if k1 = k then (k, v) :: rest else (k1, v1) :: alSet k v rest

/-- Removal (`Map::remove`): every occurrence of the key is dropped (a real
map holds at most one). -/
def alRemove {α : Type} (k : String) : List (String × α) → List (String × α)
  | [] => []
  | (k1, v1) :: rest => if k1 = k then alRemove k rest else (k1, v1) :: alRemove k rest

/-- Apply `f` to the value at the first occurrence of `k` (`Map::get_mut`
followed by in-place mutation); no effect when `k` is absent. -/
def alModify {α : Type} (k : String) (f : α → α) : List (String × α) → List (String × α)
  | [] => []
  | (k1, v1) :: rest => if k1 = k then (k1, f v1) :: rest else (k1, v1) :: alModify k f rest

/-- Insert every pair of `ps` in order (`for (key, value) in obj.iter()` with
`merged.insert(key, value)`). -/
def alSetAll {α : Type} (m : List (String × α)) (ps : List (String × α)) : List (String × α) :=
  ps.foldl (fun acc kv => alSet kv.1 kv.2 acc) m

namespace Json

def isObj : Json → Bool
  | .obj _ => true
  | _ => false

/-- `Value::get(key)`: field lookup, `none` on non-objects. -/
def get : Json → String → Option Json
  | .obj l, k => alGet k l
  | _, _ => none

/-- `value[key] = v` on an object (all call sites in the source guarantee the
receiver is an object; on anything else `serde_json` would panic, modelled
here as the identity). -/
def set : Json → String → Json → Json
  | .obj l, k, v => .obj (alSet k v l)
  | j, _, _ => j

/-- `Map::remove(key)` lifted to a `Value` known to be an object. -/
def remove : Json → String → Json
  | .obj l, k => .obj (alRemove k l)
  | j, _ => j

end Json

/-! ## Constants from the source -/

def OPENCODE_CONFIG_FILE : String := "opencode.json"
def ANTIGRAVITY_ACCOUNTS_FILE : String := "antigravity-accounts.json"
def BACKUP_SUFFIX : String := ".antigravity-manager.bak"
def OLD_BACKUP_SUFFIX : String := ".antigravity.bak"
def ANTIGRAVITY_PROVIDER_ID : String := "antigravity-manager"

/-! ## URL normalization (`normalize_opencode_base_url`) -/

/-- `str::trim` (leading and trailing whitespace removed). -/
def strTrim (s : String) : String :=
  ⟨((s.data.dropWhile Char.isWhitespace).reverse.dropWhile Char.isWhitespace).reverse⟩

/-- `str::trim_end_matches('/')`. -/
def trimTrailingSlashes (s : String) : String :=
  ⟨(s.data.reverse.dropWhile (fun c => c = '/')).reverse⟩

/-- `str::ends_with`. -/
def strEndsWith (s suffPart : String) : Bool :=
  suffPart.data.isSuffixOf s.data

/-- `normalize_opencode_base_url`: trim, strip trailing slashes, append `/v1`
unless already present. -/
def normalize_opencode_base_url (input : String) : String :=
  let trimmed := trimTrailingSlashes (strTrim input)
  if strEndsWith trimmed "/v1" then trimmed else trimmed ++ "/v1"

/-! ## Model catalog (`build_model_catalog` and the JSON builders) -/

inductive VariantType where
  | claudeThinking
  | gemini3Pro
  | gemini3Flash
  | gemini25Thinking
deriving DecidableEq

structure ModelDef where
  id : String
  name : String
  contextLimit : Int
  outputLimit : Int
  inputModalities : List String
  outputModalities : List String
  reasoning : Bool
  variantType : Option VariantType
deriving DecidableEq

/-- `build_model_catalog`. -/
def build_model_catalog : List ModelDef :=
  [ { id := "claude-sonnet-4-5", name := "Claude Sonnet 4.5",
      contextLimit := 200000, outputLimit := 64000,
      inputModalities := ["text", "image", "pdf"], outputModalities := ["text"],
      reasoning := false, variantType := none },
    { id := "claude-sonnet-4-5-thinking", name := "Claude Sonnet 4.5 Thinking",
      contextLimit := 200000, outputLimit := 64000,
      inputModalities := ["text", "image", "pdf"], outputModalities := ["text"],
      reasoning := true, variantType := some .claudeThinking },
    { id := "claude-opus-4-5-thinking", name := "Claude Opus 4.5 Thinking",
      contextLimit := 200000, outputLimit := 64000,
      inputModalities := ["text", "image", "pdf"], outputModalities := ["text"],
      reasoning := true, variantType := some .claudeThinking },
    { id := "gemini-3-pro-high", name := "Gemini 3 Pro High",
      contextLimit := 1048576, outputLimit := 65535,
      inputModalities := ["text", "image", "pdf"], outputModalities := ["text", "image"],
      reasoning := true, variantType := some .gemini3Pro },
    { id := "gemini-3-pro-low", name := "Gemini 3 Pro Low",
      contextLimit := 1048576, outputLimit := 65535,
      inputModalities := ["text", "image", "pdf"], outputModalities := ["text", "image"],
      reasoning := true, variantType := some .gemini3Pro },
    { id := "gemini-3-flash", name := "Gemini 3 Flash",
      contextLimit := 1048576, outputLimit := 65536,
      inputModalities := ["text", "image", "pdf"], outputModalities := ["text"],
      reasoning := true, variantType := some .gemini3Flash },
    { id := "gemini-3-pro-image", name := "Gemini 3 Pro Image",
      contextLimit := 1048576, outputLimit := 65535,
      inputModalities := ["text", "image", "pdf"], outputModalities := ["text", "image"],
      reasoning := false, variantType := none },
    { id := "gemini-2.5-flash", name := "Gemini 2.5 Flash",
      contextLimit := 1048576, outputLimit := 65536,
      inputModalities := ["text", "image", "pdf"], outputModalities := ["text"],
      reasoning := false, variantType := none },
    { id := "gemini-2.5-flash-lite", name := "Gemini 2.5 Flash Lite",
      contextLimit := 1048576, outputLimit := 65536,
      inputModalities := ["text", "image", "pdf"], outputModalities := ["text"],
      reasoning := false, variantType := none },
    { id := "gemini-2.5-flash-thinking", name := "Gemini 2.5 Flash Thinking",
      contextLimit := 1048576, outputLimit := 65536,
      inputModalities := ["text", "image", "pdf"], outputModalities := ["text"],
      reasoning := true, variantType := some .gemini25Thinking },
    { id := "gemini-2.5-pro", name := "Gemini 2.5 Pro",
      contextLimit := 1048576, outputLimit := 65536,
      inputModalities := ["text", "image", "pdf"], outputModalities := ["text"],
      reasoning := true, variantType := none } ]

/-- `HashMap` lookup `catalog_map.get(model_id)` (keys in the catalog are
distinct, so first-occurrence lookup agrees with the hash map). -/
def catalogGet (id : String) : Option ModelDef :=
  build_model_catalog.find? (fun m => m.id = id)

/-- `build_claude_thinking_variant` / `build_gemini25_thinking_variant`
(both emit the same shape). -/
def build_thinking_variant (budget : Int) : Json :=
  .obj [("thinkingConfig", .obj [("thinkingBudget", .num budget)]),
        ("thinking", .obj [("type", .str "enabled"), ("budget_tokens", .num budget)])]

/-- `build_gemini3_variant`. -/
def build_gemini3_variant (level : String) : Json :=
  .obj [("thinkingLevel", .str level)]

/-- `build_variants_object`. -/
def build_variants_object : Option VariantType → Option Json
  | some .claudeThinking =>
      some (.obj [("low", build_thinking_variant 8192),
                  ("medium", build_thinking_variant 16384),
                  ("high", build_thinking_variant 24576),
                  ("max", build_thinking_variant 32768)])
  | some .gemini3Pro =>
      some (.obj [("low", build_gemini3_variant "low"),
                  ("high", build_gemini3_variant "high")])
  | some .gemini3Flash =>
      some (.obj [("minimal", build_gemini3_variant "minimal"),
                  ("low", build_gemini3_variant "low"),
                  ("medium", build_gemini3_variant "medium"),
                  ("high", build_gemini3_variant "high")])
  | some .gemini25Thinking =>
      some (.obj [("low", build_thinking_variant 8192),
                  ("medium", build_thinking_variant 12288),
                  ("high", build_thinking_variant 16384),
                  ("max", build_thinking_variant 24576)])
  | none => none

/-- The field list of `build_model_json`, in insertion order. -/
def modelJsonPairs (m : ModelDef) : List (String × Json) :=
  [("name", .str m.name),
   ("limit", .obj [("context", .num m.contextLimit), ("output", .num m.outputLimit)]),
   ("modalities", .obj [("input", .arr (m.inputModalities.map Json.str)),
                        ("output", .arr (m.outputModalities.map Json.str))])]
  ++ (if m.reasoning then [("reasoning", .bool true)] else [])
  ++ (match build_variants_object m.variantType with
      | some v => [("variants", v)]
      | none => [])

/-- `build_model_json`. -/
def build_model_json (m : ModelDef) : Json :=
  .obj (modelJsonPairs m)

/-! ## Document merge engine -/

/-- `ensure_object(value, key)`: reset `value[key]` to `{}` when it is absent
or not an object. -/
def ensure_object (v : Json) (key : String) : Json :=
  let needsReset := match v.get key with
    | none => true
    | some w => !w.isObj
  if needsReset then v.set key (.obj []) else v

/-- `ensure_provider_object(provider, name)` (same reset, directly on the map). -/
def ensure_provider_object (provider : List (String × Json)) (name : String) :
    List (String × Json) :=
  let needsReset := match alGet name provider with
    | none => true
    | some w => !w.isObj
  if needsReset then alSet name (.obj []) provider else provider

/-- `merge_provider_options`: create `options` only when the key is absent,
then insert `baseURL` and `apiKey` only when `options` is an object. -/
def merge_provider_options (provider : Json) (baseUrl apiKey : String) : Json :=
  let provider := if (provider.get "options").isNone
    then provider.set "options" (.obj []) else provider
  match provider.get "options" with
  | some (.obj options) =>
      provider.set "options"
        (.obj (alSet "apiKey" (.str apiKey) (alSet "baseURL" (.str baseUrl) options)))
  | _ => provider

/-- `ensure_provider_string_field`: unconditional overwrite when the provider
is an object. -/
def ensure_provider_string_field (provider : Json) (key value : String) : Json :=
  match provider with
  | .obj l => .obj (alSet key (.str value) l)
  | j => j

/-- The per-model merge step inside `merge_catalog_models`: shallow merge onto
an existing object, full replacement otherwise. -/
def mergeModelEntry (old : Option Json) (m : ModelDef) : Json :=
  match old with
  | some (.obj existingObj) => .obj (alSetAll existingObj (modelJsonPairs m))
  | some _ => build_model_json m
  | none => build_model_json m

/-- One iteration of the `for model_id in ids_to_sync` loop: ids absent from
the catalog are skipped. -/
def mergeModelStep (models : List (String × Json)) (id : String) : List (String × Json) :=
  match catalogGet id with
  | some m => alSet id (mergeModelEntry (alGet id models) m) models
  | none => models

/-- The catalog ids, used when no explicit selector is given (`catalog_map.keys()`
iterates a `HashMap` in unspecified order; the catalog order is fixed here —
each id is processed independently, so the resulting map does not depend on
the order). -/
def catalogIds : List String := build_model_catalog.map (fun m => m.id)

/-- The selected ids (`ids_to_sync`). -/
def idsOf : Option (List String) → List String
  | some ids => ids
  | none => catalogIds

/-- The `for model_id in ids_to_sync` loop as a fold. -/
def foldMerge (ids : List String) (models : List (String × Json)) :
    List (String × Json) :=
  ids.foldl mergeModelStep models

/-- `merge_catalog_models`: create `models` only when the key is absent, then
(when `models` is an object) merge every selected catalog entry into it. -/
def merge_catalog_models (provider : Json) (modelIds : Option (List String)) : Json :=
  let provider := if (provider.get "models").isNone
    then provider.set "models" (.obj []) else provider
  match provider.get "models" with
  | some (.obj models) => provider.set "models" (.obj (foldMerge (idsOf modelIds) models))
  | _ => provider

/-- The body applied to the managed provider entry inside
`apply_sync_to_config` (set `npm` and `name`, merge options, merge models). -/
def syncAgEntry (ag : Json) (normalizedUrl apiKey : String)
    (modelsToSync : Option (List String)) : Json :=
  let ag := ensure_provider_string_field ag "npm" "@ai-sdk/anthropic"
  let ag := ensure_provider_string_field ag "name" "Antigravity Manager"
  let ag := merge_provider_options ag normalizedUrl apiKey
  merge_catalog_models ag modelsToSync

/-- `apply_sync_to_config`. -/
def apply_sync_to_config (config : Json) (proxyUrl apiKey : String)
    (modelsToSync : Option (List String)) : Json :=
  let config := if config.isObj then config else .obj []
  let config := if (config.get "$schema").isNone
    then config.set "$schema" (.str "https://opencode.ai/config.json") else config
  let normalizedUrl := normalize_opencode_base_url proxyUrl
  let config := ensure_object config "provider"
  match config.get "provider" with
  | some (.obj provider) =>
      let provider := ensure_provider_object provider ANTIGRAVITY_PROVIDER_ID
      let provider := alModify ANTIGRAVITY_PROVIDER_ID
        (fun ag => syncAgEntry ag normalizedUrl apiKey modelsToSync) provider
      config.set "provider" (.obj provider)
  | _ => config

/-! ## Document clear engine -/

/-- `ANTIGRAVITY_MODEL_IDS`. -/
def ANTIGRAVITY_MODEL_IDS : List String :=
  ["claude-sonnet-4-5", "claude-sonnet-4-5-thinking", "claude-opus-4-5-thinking",
   "gemini-3-pro-high", "gemini-3-pro-low", "gemini-3-flash", "gemini-3-pro-image",
   "gemini-2.5-flash", "gemini-2.5-flash-lite", "gemini-2.5-flash-thinking",
   "gemini-2.5-pro"]

/-- `base_url_matches`. -/
def base_url_matches (configUrl proxyUrl : String) : Bool :=
  normalize_opencode_base_url configUrl = normalize_opencode_base_url proxyUrl

/-- The `should_cleanup` test of `cleanup_legacy_provider`: the `options`
map holds a string `baseURL` matching the proxy endpoint. -/
def shouldCleanupOf (options : List (String × Json)) (proxyUrl : String) : Bool :=
  match alGet "baseURL" options with
  | some (.str u) => base_url_matches u proxyUrl
  | _ => false

/-- First half of `cleanup_legacy_provider`: remove the managed model ids
from `models`, dropping the key when the map becomes empty. -/
def cleanup_models_step (providerObj : List (String × Json)) :
    List (String × Json) :=
  let step1 := match alGet "models" providerObj with
    | some (.obj models) =>
        let models := ANTIGRAVITY_MODEL_IDS.foldl (fun ms id => alRemove id ms) models
        (alSet "models" (Json.obj models) providerObj, models.isEmpty)
    | _ => (providerObj, false)
  if step1.2 then alRemove "models" step1.1 else step1.1

/-- Second half of `cleanup_legacy_provider`: strip `baseURL` and `apiKey`
from `options` when the `baseURL` matches the proxy, dropping the key when
the map becomes empty. -/
def cleanup_options_step (providerObj : List (String × Json)) (proxyUrl : String) :
    List (String × Json) :=
  let step2 := match alGet "options" providerObj with
    | some (.obj options) =>
        let options := if shouldCleanupOf options proxyUrl
          then alRemove "apiKey" (alRemove "baseURL" options) else options
        (alSet "options" (Json.obj options) providerObj, options.isEmpty)
    | _ => (providerObj, false)
  if step2.2 then alRemove "options" step2.1 else step2.1

/-- `cleanup_legacy_provider`. -/
def cleanup_legacy_provider (provider : Json) (proxyUrl : String) : Json :=
  match provider with
  | .obj providerObj =>
      .obj (cleanup_options_step (cleanup_models_step providerObj) proxyUrl)
  | j => j

/-- `apply_clear_to_config`. -/
def apply_clear_to_config (config : Json) (proxyUrl : Option String)
    (clearLegacy : Bool) : Json :=
  match config.get "provider" with
  | some (.obj provider) =>
      let provider := alRemove ANTIGRAVITY_PROVIDER_ID provider
      let provider :=
        if clearLegacy then
          match proxyUrl with
          | some proxy =>
              let provider := alModify "anthropic"
                (fun p => cleanup_legacy_provider p proxy) provider
              alModify "google" (fun p => cleanup_legacy_provider p proxy) provider
          | none => provider
        else provider
      if provider.isEmpty then config.remove "provider"
      else config.set "provider" (.obj provider)
  | _ => config

/-! ## Account reconciler (`sync_accounts_file`)

The pure reconciliation core of `sync_accounts_file` is embedded over already
parsed data: the existing file's account records, `activeIndex` and
`activeIndexByFamily` (the surrounding code parses them from JSON, defaulting
`activeIndex` to 0 and skipping unparsable entries), and the authoritative
in-app account list returned by `crate::modules::account::list_accounts`
(of which only the fields read here are represented; `token.refresh_token`
and `token.project_id` are flattened). `chrono::Utc::now()` is passed in as
the `now` parameter. Timestamps and indices are embedded as `Int`. -/

/-- `PluginAccount` (schema v3 record of the external accounts file). -/
structure PluginAccount where
  email : Option String
  refreshToken : String
  projectId : Option String
  addedAt : Int
  lastUsed : Int
  rateLimitResetTimes : Option (List (String × Int))
  managedProjectId : Option String
  enabled : Option Bool
  lastSwitchReason : Option String
  coolingDownUntil : Option Int
  cooldownReason : Option String
  fingerprint : Option Json
  cachedQuota : Option Json
  cachedQuotaUpdatedAt : Option Int
  fingerprintHistory : Option Json

/-- `PluginAccountsFile` (schema v3). -/
structure PluginAccountsFile where
  version : Int
  accounts : List PluginAccount
  activeIndex : Int
  activeIndexByFamily : List (String × Int)

/-- The fields of an authoritative in-app account that `sync_accounts_file`
reads. -/
structure AppAccount where
  email : String
  refreshToken : String
  projectId : Option String
  lastUsed : Int
  disabled : Bool
  proxyDisabled : Bool

/-- The `existing_accounts_by_refresh_token` index: every parsed record is
inserted keyed by its refresh token (later records overwrite earlier ones,
as `HashMap::insert` does). -/
def buildByRefreshToken (accs : List PluginAccount) : List (String × PluginAccount) :=
  accs.foldl (fun m a => alSet a.refreshToken a m) []

/-- The `existing_accounts_by_email` index: records with an email are
inserted keyed by it. -/
def buildByEmail (accs : List PluginAccount) : List (String × PluginAccount) :=
  accs.foldl (fun m a =>
    match a.email with
    | some e => alSet e a m
    | none => m) []

/-- The `existing` lookup of the reconciliation loop: by refresh token
first, else by email. -/
def lookupExisting (byToken byEmail : List (String × PluginAccount))
    (acc : AppAccount) : Option PluginAccount :=
  match alGet acc.refreshToken byToken with
  | some e => some e
  | none => alGet acc.email byEmail

/-- The per-account body of the reconciliation loop: preserve
externally-owned state on a match, default it on a miss. -/
def reconcileAccount (byToken byEmail : List (String × PluginAccount)) (now : Int)
    (acc : AppAccount) : PluginAccount :=
  match lookupExisting byToken byEmail acc with
  | some ex =>
      { email := some acc.email
        refreshToken := acc.refreshToken
        projectId := acc.projectId
        addedAt := ex.addedAt
        lastUsed := max ex.lastUsed acc.lastUsed
        rateLimitResetTimes := ex.rateLimitResetTimes
        managedProjectId := ex.managedProjectId
        enabled := ex.enabled
        lastSwitchReason := ex.lastSwitchReason
        coolingDownUntil := ex.coolingDownUntil
        cooldownReason := ex.cooldownReason
        fingerprint := ex.fingerprint
        cachedQuota := ex.cachedQuota
        cachedQuotaUpdatedAt := ex.cachedQuotaUpdatedAt
        fingerprintHistory := ex.fingerprintHistory }
  | none =>
      { email := some acc.email
        refreshToken := acc.refreshToken
        projectId := acc.projectId
        addedAt := now
        lastUsed := acc.lastUsed
        rateLimitResetTimes := none
        managedProjectId := none
        enabled := none
        lastSwitchReason := none
        coolingDownUntil := none
        cooldownReason := none
        fingerprint := none
        cachedQuota := none
        cachedQuotaUpdatedAt := none
        fingerprintHistory := none }

/-- `i32::clamp(0, count - 1)` guarded by `count > 0`, exactly as in the
source (Rust `clamp`: below the minimum gives the minimum, above the maximum
gives the maximum). -/
def clampIndex (idx count : Int) : Int :=
  if count > 0 then
    if idx < 0 then 0 else if idx > count - 1 then count - 1 else idx
  else 0

/-- One ensure-key step of the family recomputation: insert the default when
the key is absent. -/
def ensureStep (name : String) (clamped : Int) (l : List (String × Int)) :
    List (String × Int) :=
  if (alGet name l).isSome then l else alSet name clamped l

/-- The `activeIndexByFamily` recomputation: clamp every carried-over value,
then ensure the `claude` and `gemini` keys exist, defaulting to the clamped
active index. -/
def clampFamily (fam : List (String × Int)) (count clamped : Int) :
    List (String × Int) :=
  ensureStep "gemini" clamped
    (ensureStep "claude" clamped (fam.map (fun kv => (kv.1, clampIndex kv.2 count))))

/-- The pure core of `sync_accounts_file`: build the two lookup indices, drop
disabled accounts, reconcile the rest in authoritative order, clamp the active
indices and ensure the `claude`/`gemini` family entries. -/
def sync_accounts_core (existingAccounts : List PluginAccount)
    (existingActiveIndex : Int) (existingActiveIndexByFamily : List (String × Int))
    (appAccounts : List AppAccount) (now : Int) : PluginAccountsFile :=
  let byToken := buildByRefreshToken existingAccounts
  let byEmail := buildByEmail existingAccounts
  let newAccounts :=
    (appAccounts.filter (fun a => !(a.disabled || a.proxyDisabled))).map
      (reconcileAccount byToken byEmail now)
  let accountCount : Int := newAccounts.length
  let clampedActiveIndex := clampIndex existingActiveIndex accountCount
  { version := 3
    accounts := newAccounts
    activeIndex := clampedActiveIndex
    activeIndexByFamily :=
      clampFamily existingActiveIndexByFamily accountCount clampedActiveIndex }

/-! ## Backup/restore manager (`restore_opencode_config`)

The file system is embedded as an association list from path to contents
(paths are unique in a real file system); the configuration directory prefix
common to all paths is elided, and the individual file operations are assumed
to succeed, so the only error the embedding can report is the one the source
produces itself (`"No backup files found"`). -/

/-- A file system: path → contents. -/
def FileSys : Type := List (String × String)

/-- `Path::exists`. -/
def fsExists (fs : FileSys) (p : String) : Bool :=
  (alGet p fs).isSome

/-- `fs::remove_file` (removes the path entirely). -/
def fsRemove (fs : FileSys) (p : String) : FileSys :=
  alRemove p fs

/-- `fs::rename(from, to)` (only invoked when `from` exists). -/
def fsRename (fs : FileSys) (src dst : String) : FileSys :=
  match alGet src fs with
  | some c => alSet dst c (fsRemove fs src)
  | none => fs

/-- `restore_backup_to_target`: delete any existing target, then rename the
backup onto it. -/
def restore_backup_to_target (fs : FileSys) (backupPath targetPath : String) : FileSys :=
  let fs := if fsExists fs targetPath then fsRemove fs targetPath else fs
  fsRename fs backupPath targetPath

/-- Restore one target file: the current-suffix backup is tried first, then
the legacy-suffix one; the flag records whether a restore happened. -/
def restore_one (fs : FileSys) (target backupNew backupOld : String) :
    FileSys × Bool :=
  if fsExists fs backupNew then
    (restore_backup_to_target fs backupNew target, true)
  else if fsExists fs backupOld then
    (restore_backup_to_target fs backupOld target, true)
  else (fs, false)

/-- `Result::is_ok` on the embedded result type. -/
def resultOk : Except String FileSys → Bool
  | .ok _ => true
  | .error _ => false

/-- `restore_opencode_config`: restore each of the two managed files from its
current-suffix backup first, else from its legacy-suffix backup; fail only
when no backup was restored at all (the aggregate `restored` flag is the
disjunction of the per-file flags, as in the source). -/
def restore_opencode_config (fs : FileSys) : Except String FileSys :=
  let step1 := restore_one fs OPENCODE_CONFIG_FILE
    (OPENCODE_CONFIG_FILE ++ BACKUP_SUFFIX)
    (OPENCODE_CONFIG_FILE ++ OLD_BACKUP_SUFFIX)
  let step2 := restore_one step1.1 ANTIGRAVITY_ACCOUNTS_FILE
    (ANTIGRAVITY_ACCOUNTS_FILE ++ BACKUP_SUFFIX)
    (ANTIGRAVITY_ACCOUNTS_FILE ++ OLD_BACKUP_SUFFIX)
  if step1.2 || step2.2 then .ok step2.1
  else .error "No backup files found"

/-! ## Derived views of the merge engine

These definitions name intermediate states of `apply_sync_to_config` so the
claims can refer to them; each is justified against the source by a proved
characterization equation below. -/

/-- The `provider` map the merge operates on after the root coercions: the
existing map when the document is an object with an object `provider`, the
fresh empty map otherwise. -/
def preProviderList (d : Json) : List (String × Json) :=
  match d.get "provider" with
  | some (.obj p) => p
  | _ => []

/-- The managed entry the merge operates on after `ensure_provider_object`. -/
def preAgList (d : Json) : List (String × Json) :=
  match alGet ANTIGRAVITY_PROVIDER_ID (preProviderList d) with
  | some (.obj a) => a
  | _ => []

/-- The `models` map the merge operates on: fresh when the key is absent, the
existing map when it is an object, and `none` when a non-object value blocks
the merge. -/
def preModels (d : Json) : Option (List (String × Json)) :=
  match alGet "models" (preAgList d) with
  | none => some []
  | some (.obj m) => some m
  | some _ => none

/-- The value of the `options` key after `merge_provider_options`, as a
function of its previous value. -/
def optionsAfterVal (old : Option Json) (baseUrl apiKey : String) : Json :=
  match old with
  | some (.obj o) => .obj (alSet "apiKey" (.str apiKey) (alSet "baseURL" (.str baseUrl) o))
  | some w => w
  | none => .obj [("baseURL", .str baseUrl), ("apiKey", .str apiKey)]

/-- The value of the `models` key after `merge_catalog_models`, as a
function of its previous value. -/
def modelsAfterVal (old : Option Json) (modelIds : Option (List String)) : Json :=
  match old with
  | some (.obj m) => .obj (foldMerge (idsOf modelIds) m)
  | some w => w
  | none => .obj (foldMerge (idsOf modelIds) [])

/-- The managed entry map after the whole per-entry merge (`syncAgEntry`). -/
def agAfter (A : List (String × Json)) (baseUrl apiKey : String)
    (modelIds : Option (List String)) : List (String × Json) :=
  alSet "models" (modelsAfterVal (alGet "models" A) modelIds)
    (alSet "options" (optionsAfterVal (alGet "options" A) baseUrl apiKey)
      (alSet "name" (.str "Antigravity Manager")
        (alSet "npm" (.str "@ai-sdk/anthropic") A)))

/-- The root coercion of `apply_sync_to_config`. -/
def coerceRoot (d : Json) : Json :=
  if d.isObj then d else .obj []

/-- The `$schema` set-if-absent step of `apply_sync_to_config`. -/
def schemaStep (c : Json) : Json :=
  if (c.get "$schema").isNone
    then c.set "$schema" (.str "https://opencode.ai/config.json") else c

/-- The document after the root steps of `apply_sync_to_config` (coercion,
`$schema`, `ensure_object`), before the provider entry is merged. -/
def syncBase (d : Json) : Json :=
  ensure_object (schemaStep (coerceRoot d)) "provider"

/-- Navigation to the managed provider's model entry `id`. -/
def managedModelEntry (d : Json) (id : String) : Option Json :=
  (((d.get "provider").bind (fun p => p.get ANTIGRAVITY_PROVIDER_ID)).bind
    (fun a => a.get "models")).bind (fun ms => ms.get id)

/-- The required shape of the managed provider entry: string `npm` and
`name`, an `options` object containing `baseURL` and `apiKey`, and a
`models` object. -/
def hasRequiredShape (d : Json) : Bool :=
  match (d.get "provider").bind (fun p => p.get ANTIGRAVITY_PROVIDER_ID) with
  | some (.obj entry) =>
      (match alGet "npm" entry with
        | some (.str _) => true
        | _ => false) &&
      (match alGet "name" entry with
        | some (.str _) => true
        | _ => false) &&
      (match alGet "options" entry with
        | some (.obj o) => (alGet "baseURL" o).isSome && (alGet "apiKey" o).isSome
        | _ => false) &&
      (match alGet "models" entry with
        | some (.obj _) => true
        | _ => false)
  | _ => false

/-- Navigation to a legacy provider's `options` value. -/
def legacyOptions (d : Json) (name : String) : Option Json :=
  ((d.get "provider").bind (fun p => p.get name)).bind (fun l => l.get "options")

/-- The field-level contract of one reconciled account record `r` produced
from the authoritative account `a`: identity fields are authoritative; on a
match (by refresh token first, else by email) `addedAt` and all
externally-owned state come from the existing record and `lastUsed` is the
maximum of both sides; on a miss `addedAt` is `now` and the externally-owned
state is absent. -/
def reconciledOk (byToken byEmail : List (String × PluginAccount)) (now : Int)
    (r : PluginAccount) (a : AppAccount) : Prop :=
  r.email = some a.email ∧ r.refreshToken = a.refreshToken ∧
  r.projectId = a.projectId ∧
  match lookupExisting byToken byEmail a with
  | some ex =>
      r.addedAt = ex.addedAt ∧ r.lastUsed = max ex.lastUsed a.lastUsed ∧
      r.rateLimitResetTimes = ex.rateLimitResetTimes ∧
      r.managedProjectId = ex.managedProjectId ∧ r.enabled = ex.enabled ∧
      r.lastSwitchReason = ex.lastSwitchReason ∧
      r.coolingDownUntil = ex.coolingDownUntil ∧
      r.cooldownReason = ex.cooldownReason ∧ r.fingerprint = ex.fingerprint ∧
      r.cachedQuota = ex.cachedQuota ∧
      r.cachedQuotaUpdatedAt = ex.cachedQuotaUpdatedAt ∧
      r.fingerprintHistory = ex.fingerprintHistory
  | none =>
      r.addedAt = now ∧ r.lastUsed = a.lastUsed ∧
      r.rateLimitResetTimes = none ∧ r.managedProjectId = none ∧
      r.enabled = none ∧ r.lastSwitchReason = none ∧
      r.coolingDownUntil = none ∧ r.cooldownReason = none ∧
      r.fingerprint = none ∧ r.cachedQuota = none ∧
      r.cachedQuotaUpdatedAt = none ∧ r.fingerprintHistory = none

/-! ## Association-list lemmas -/

section AListLemmas

variable {α : Type}

@[simp] theorem alGet_nil (k : String) : alGet (α := α) k [] = none := rfl

@[simp] theorem alGet_alSet_self (k : String) (v : α) (l : List (String × α)) :
    alGet k (alSet k v l) = some v := by
  induction l with
  | nil => simp [alGet, alSet]
  | cons hd tl ih =>
      by_cases h : hd.1 = k
      · cases hd
        simp_all [alGet, alSet]
      · cases hd
        simp_all [alGet, alSet]

theorem alGet_alSet_ne {k k1 : String} (h : k ≠ k1) (v : α) (l : List (String × α)) :
    alGet k (alSet k1 v l) = alGet k l := by
  induction l with
  | nil => simp [alGet, alSet, Ne.symm h]
  | cons hd tl ih =>
      cases hd with
      | mk k2 v2 =>
        by_cases h1 : k2 = k1
        · simp_all [alGet, alSet, Ne.symm h]
        · by_cases h2 : k2 = k <;> simp_all [alGet, alSet]

theorem alSet_self {k : String} {v : α} {l : List (String × α)}
    (h : alGet k l = some v) : alSet k v l = l := by
  induction l with
  | nil => simp [alGet] at h
  | cons hd tl ih =>
      cases hd with
      | mk k1 v1 =>
        by_cases h1 : k1 = k
        · subst h1
          simp [alGet] at h
          simp [alSet, h]
        · simp [alGet, h1] at h
          simp [alSet, h1, ih h]

theorem alGet_alModify_self (k : String) (f : α → α) (l : List (String × α)) :
    alGet k (alModify k f l) = (alGet k l).map f := by
  induction l with
  | nil => simp [alGet, alModify]
  | cons hd tl ih =>
      cases hd with
      | mk k1 v1 =>
        by_cases h1 : k1 = k <;> simp_all [alGet, alModify]

theorem alGet_alModify_ne {k k1 : String} (h : k ≠ k1) (f : α → α)
    (l : List (String × α)) : alGet k (alModify k1 f l) = alGet k l := by
  induction l with
  | nil => simp [alModify]
  | cons hd tl ih =>
      cases hd with
      | mk k2 v2 =>
        by_cases h1 : k2 = k1
        · subst h1
          simp [alGet, alModify, Ne.symm h]
        · by_cases h2 : k2 = k <;> simp_all [alGet, alModify]

theorem alModify_id {k : String} {v : α} {f : α → α} {l : List (String × α)}
    (h : alGet k l = some v) (hf : f v = v) : alModify k f l = l := by
  induction l with
  | nil => simp [alGet] at h
  | cons hd tl ih =>
      cases hd with
      | mk k1 v1 =>
        by_cases h1 : k1 = k
        · subst h1
          simp [alGet] at h
          subst h
          simp [alModify, hf]
        · simp [alGet, h1] at h
          simp [alModify, h1, ih h]

theorem alGet_alRemove_ne {k k1 : String} (h : k ≠ k1) (l : List (String × α)) :
    alGet k (alRemove k1 l) = alGet k l := by
  induction l with
  | nil => simp [alRemove]
  | cons hd tl ih =>
      cases hd with
      | mk k2 v2 =>
        by_cases h1 : k2 = k1
        · subst h1
          simp [alGet, alRemove, Ne.symm h, ih]
        · by_cases h2 : k2 = k <;> simp_all [alGet, alRemove]

theorem alSet_alSet (k : String) (v1 v2 : α) (l : List (String × α)) :
    alSet k v2 (alSet k v1 l) = alSet k v2 l := by
  induction l with
  | nil => simp [alSet]
  | cons hd tl ih =>
      cases hd with
      | mk k1 w =>
        by_cases h1 : k1 = k <;> simp_all [alSet]

theorem alGet_eq_none_of_notMem {k : String} {ps : List (String × α)}
    (h : k ∉ ps.map Prod.fst) : alGet k ps = none := by
  induction ps with
  | nil => rfl
  | cons hd tl ih =>
      simp only [List.map_cons, List.mem_cons, not_or] at h
      have hne : hd.1 ≠ k := fun he => h.1 he.symm
      cases hd
      simp_all [alGet]

theorem alGet_alSetAll_of_notMem {k : String} {ps : List (String × α)}
    (h : k ∉ ps.map Prod.fst) (m : List (String × α)) :
    alGet k (alSetAll m ps) = alGet k m := by
  induction ps generalizing m with
  | nil => simp [alSetAll]
  | cons hd tl ih =>
      simp only [List.map_cons, List.mem_cons, not_or] at h
      have step : alSetAll m (hd :: tl) = alSetAll (alSet hd.1 hd.2 m) tl := rfl
      rw [step, ih h.2]
      exact alGet_alSet_ne h.1 _ _

theorem alSetAll_id {ps m : List (String × α)}
    (h : ∀ p ∈ ps, alGet p.1 m = some p.2) : alSetAll m ps = m := by
  induction ps with
  | nil => rfl
  | cons hd tl ih =>
      have step : alSetAll m (hd :: tl) = alSetAll (alSet hd.1 hd.2 m) tl := rfl
      rw [step, alSet_self (h hd (List.mem_cons_self hd tl))]
      exact ih (fun p hp => h p (List.mem_cons_of_mem hd hp))

theorem alGet_alSetAll {k : String} {ps : List (String × α)}
    (hnd : (ps.map Prod.fst).Nodup) (m : List (String × α)) :
    alGet k (alSetAll m ps) =
      match alGet k ps with
      | some v => some v
      | none => alGet k m := by
  induction ps generalizing m with
  | nil => simp [alSetAll, alGet]
  | cons hd tl ih =>
      simp only [List.map_cons, List.nodup_cons] at hnd
      have step : alSetAll m (hd :: tl) = alSetAll (alSet hd.1 hd.2 m) tl := rfl
      rw [step, ih hnd.2]
      by_cases h1 : hd.1 = k
      · subst h1
        have hnone : alGet hd.1 tl = none := alGet_eq_none_of_notMem hnd.1
        cases hd
        simp_all [alGet]
      · have h2 : ¬((fun p => p.1 = k) hd) := h1
        cases hd
        cases h3 : alGet k tl <;>
          simp_all [alGet, alGet_alSet_ne (fun he => h1 he.symm)]

theorem alGet_mem_of_nodup {k : String} {v : α} {ps : List (String × α)}
    (hnd : (ps.map Prod.fst).Nodup) (h : (k, v) ∈ ps) : alGet k ps = some v := by
  induction ps with
  | nil => simp at h
  | cons hd tl ih =>
      simp only [List.map_cons, List.nodup_cons] at hnd
      rcases List.mem_cons.mp h with h1 | h1
      · subst h1
        simp [alGet]
      · have hne : hd.1 ≠ k := by
          intro he
          exact hnd.1 (he ▸ List.mem_map_of_mem Prod.fst h1)
        cases hd
        simp only [alGet, if_neg hne]
        exact ih hnd.2 h1

end AListLemmas

/-! ## Json access lemmas -/

theorem Json.get_set_self {j : Json} (hj : j.isObj = true) (k : String) (v : Json) :
    (j.set k v).get k = some v := by
  cases j <;> simp_all [Json.isObj, Json.set, Json.get]

theorem Json.get_set_ne {k k1 : String} (h : k ≠ k1) (j v : Json) :
    (j.set k1 v).get k = j.get k := by
  cases j <;> simp [Json.set, Json.get, alGet_alSet_ne h]

theorem Json.set_self {j v : Json} {k : String} (h : j.get k = some v) :
    j.set k v = j := by
  cases j <;> simp_all [Json.get, Json.set]
  exact alSet_self h

theorem Json.get_remove_ne {k k1 : String} (h : k ≠ k1) (j : Json) :
    (j.remove k1).get k = j.get k := by
  cases j <;> simp [Json.remove, Json.get, alGet_alRemove_ne h]

@[simp] theorem Json.isObj_set (j v : Json) (k : String) :
    (j.set k v).isObj = j.isObj := by
  cases j <;> simp [Json.set, Json.isObj]

/-! ### Characterization of `apply_sync_to_config` -/

theorem ensure_object_isObj (c : Json) (k : String) :
    (ensure_object c k).isObj = c.isObj := by
  unfold ensure_object
  split
  · simp [Json.isObj_set]
  · next x w heq => cases hw : w.isObj <;> simp [hw, Json.isObj_set]

theorem ensure_object_get_ne {k k1 : String} (h : k ≠ k1) (c : Json) :
    (ensure_object c k1).get k = c.get k := by
  unfold ensure_object
  split
  · simp [Json.get_set_ne h]
  · next x w heq => cases hw : w.isObj <;> simp [hw, Json.get_set_ne h]

theorem ensure_object_get_self (c : Json) (hc : c.isObj = true) (k : String) :
    (ensure_object c k).get k =
      match c.get k with
      | some (Json.obj p) => some (Json.obj p)
      | _ => some (Json.obj []) := by
  unfold ensure_object
  cases h : c.get k with
  | none => simp [h, Json.get_set_self hc]
  | some w => cases w <;> simp [h, Json.isObj, Json.get_set_self hc]

theorem coerceRoot_isObj (d : Json) : (coerceRoot d).isObj = true := by
  unfold coerceRoot
  cases h : d.isObj with
  | true => simp [h]
  | false => simp [h, Json.isObj]

theorem coerceRoot_get (d : Json) (k : String) :
    (coerceRoot d).get k = d.get k := by
  unfold coerceRoot
  cases d <;> simp [Json.isObj, Json.get, alGet]

theorem schemaStep_isObj (c : Json) : (schemaStep c).isObj = c.isObj := by
  unfold schemaStep
  split <;> simp [Json.isObj_set]

theorem schemaStep_get_ne {k : String} (h : k ≠ "$schema") (c : Json) :
    (schemaStep c).get k = c.get k := by
  unfold schemaStep
  split <;> simp [Json.get_set_ne h]

theorem schemaStep_get_schema (c : Json) (hc : c.isObj = true) :
    (schemaStep c).get "$schema" =
      some ((c.get "$schema").getD (.str "https://opencode.ai/config.json")) := by
  unfold schemaStep
  cases h : c.get "$schema" with
  | none => simp [h, Json.get_set_self hc]
  | some w => simp [h]

theorem syncBase_isObj (d : Json) : (syncBase d).isObj = true := by
  unfold syncBase
  rw [ensure_object_isObj, schemaStep_isObj, coerceRoot_isObj]

theorem syncBase_get_provider (d : Json) :
    (syncBase d).get "provider" = some (.obj (preProviderList d)) := by
  unfold syncBase preProviderList
  rw [ensure_object_get_self _ (by rw [schemaStep_isObj, coerceRoot_isObj]),
    schemaStep_get_ne (by decide), coerceRoot_get]
  cases h : d.get "provider" with
  | none => rfl
  | some w => cases w <;> rfl

theorem syncBase_get_other {k : String} (h1 : k ≠ "$schema") (h2 : k ≠ "provider")
    (d : Json) : (syncBase d).get k = d.get k := by
  unfold syncBase
  rw [ensure_object_get_ne h2, schemaStep_get_ne h1, coerceRoot_get]

theorem syncBase_get_schema (d : Json) :
    (syncBase d).get "$schema" =
      some ((d.get "$schema").getD (.str "https://opencode.ai/config.json")) := by
  unfold syncBase
  rw [ensure_object_get_ne (by decide),
    schemaStep_get_schema _ (coerceRoot_isObj d), coerceRoot_get]

theorem apply_sync_unfold (d : Json) (u a : String) (m : Option (List String)) :
    apply_sync_to_config d u a m =
      match (syncBase d).get "provider" with
      | some (.obj provider) =>
          (syncBase d).set "provider"
            (.obj (alModify ANTIGRAVITY_PROVIDER_ID
              (fun ag => syncAgEntry ag (normalize_opencode_base_url u) a m)
              (ensure_provider_object provider ANTIGRAVITY_PROVIDER_ID)))
      | _ => syncBase d := rfl

/-- The merged document: the root steps followed by replacing the provider
map, whose managed entry has been rebuilt. -/
theorem apply_sync_eq (d : Json) (u a : String) (m : Option (List String)) :
    apply_sync_to_config d u a m =
      (syncBase d).set "provider"
        (.obj (alModify ANTIGRAVITY_PROVIDER_ID
          (fun ag => syncAgEntry ag (normalize_opencode_base_url u) a m)
          (ensure_provider_object (preProviderList d) ANTIGRAVITY_PROVIDER_ID))) := by
  rw [apply_sync_unfold, syncBase_get_provider]

theorem ensure_provider_object_get (P : List (String × Json)) (name : String) :
    alGet name (ensure_provider_object P name) =
      some (.obj (match alGet name P with
        | some (Json.obj a) => a
        | _ => [])) := by
  unfold ensure_provider_object
  cases h : alGet name P with
  | none => simp [h]
  | some w => cases w <;> simp [h, Json.isObj]

theorem merge_provider_options_obj (A : List (String × Json)) (nu a : String) :
    merge_provider_options (.obj A) nu a =
      .obj (alSet "options" (optionsAfterVal (alGet "options" A) nu a) A) := by
  cases h : alGet "options" A with
  | none =>
      simp [merge_provider_options, optionsAfterVal, Json.get, Json.set, h,
        alGet_alSet_self, alSet_alSet, alSet]
  | some w =>
      cases w <;>
        simp [merge_provider_options, optionsAfterVal, Json.get, Json.set, h,
          alSet_self h]

theorem merge_catalog_models_obj (A : List (String × Json))
    (m : Option (List String)) :
    merge_catalog_models (.obj A) m =
      .obj (alSet "models" (modelsAfterVal (alGet "models" A) m) A) := by
  cases h : alGet "models" A with
  | none =>
      simp [merge_catalog_models, modelsAfterVal, Json.get, Json.set, h,
        alGet_alSet_self, alSet_alSet]
  | some w =>
      cases w <;>
        simp [merge_catalog_models, modelsAfterVal, Json.get, Json.set, h,
          alSet_self h]

theorem syncAgEntry_eq (A : List (String × Json)) (nu a : String)
    (m : Option (List String)) :
    syncAgEntry (.obj A) nu a m = .obj (agAfter A nu a m) := by
  show merge_catalog_models
      (merge_provider_options
        (.obj (alSet "name" (.str "Antigravity Manager")
          (alSet "npm" (.str "@ai-sdk/anthropic") A))) nu a) m
    = .obj (agAfter A nu a m)
  unfold agAfter
  rw [merge_provider_options_obj, merge_catalog_models_obj,
    alGet_alSet_ne (show "options" ≠ "name" by decide),
    alGet_alSet_ne (show "options" ≠ "npm" by decide),
    alGet_alSet_ne (show "models" ≠ "options" by decide),
    alGet_alSet_ne (show "models" ≠ "name" by decide),
    alGet_alSet_ne (show "models" ≠ "npm" by decide)]

theorem agAfter_get_npm (A : List (String × Json)) (nu a : String)
    (m : Option (List String)) :
    alGet "npm" (agAfter A nu a m) = some (.str "@ai-sdk/anthropic") := by
  unfold agAfter
  rw [alGet_alSet_ne (show "npm" ≠ "models" by decide),
    alGet_alSet_ne (show "npm" ≠ "options" by decide),
    alGet_alSet_ne (show "npm" ≠ "name" by decide), alGet_alSet_self]

theorem agAfter_get_name (A : List (String × Json)) (nu a : String)
    (m : Option (List String)) :
    alGet "name" (agAfter A nu a m) = some (.str "Antigravity Manager") := by
  unfold agAfter
  rw [alGet_alSet_ne (show "name" ≠ "models" by decide),
    alGet_alSet_ne (show "name" ≠ "options" by decide), alGet_alSet_self]

theorem agAfter_get_options (A : List (String × Json)) (nu a : String)
    (m : Option (List String)) :
    alGet "options" (agAfter A nu a m) =
      some (optionsAfterVal (alGet "options" A) nu a) := by
  unfold agAfter
  rw [alGet_alSet_ne (show "options" ≠ "models" by decide), alGet_alSet_self]

theorem agAfter_get_models (A : List (String × Json)) (nu a : String)
    (m : Option (List String)) :
    alGet "models" (agAfter A nu a m) =
      some (modelsAfterVal (alGet "models" A) m) := by
  unfold agAfter
  rw [alGet_alSet_self]

/-! ### The model-merge fold -/

theorem catalog_pairs_nodup : ∀ dm ∈ build_model_catalog,
    ((modelJsonPairs dm).map Prod.fst).Nodup := by decide

theorem catalogGet_pairs_nodup {id : String} {dm : ModelDef}
    (h : catalogGet id = some dm) : ((modelJsonPairs dm).map Prod.fst).Nodup :=
  catalog_pairs_nodup dm (List.mem_of_find?_eq_some h)

theorem alGet_of_mem_nodup {p : String × Json} {ps : List (String × Json)}
    (hnd : (ps.map Prod.fst).Nodup) (h : p ∈ ps) : alGet p.1 ps = some p.2 := by
  obtain ⟨k, v⟩ := p
  exact alGet_mem_of_nodup hnd h

theorem mergeModelEntry_spec {id : String} {dm : ModelDef}
    (h : catalogGet id = some dm) (old : Option Json) :
    ∃ Y, mergeModelEntry old dm = .obj Y ∧
      ∀ p ∈ modelJsonPairs dm, alGet p.1 Y = some p.2 := by
  have hnd := catalogGet_pairs_nodup h
  cases old with
  | none => exact ⟨modelJsonPairs dm, rfl, fun p hp => alGet_of_mem_nodup hnd hp⟩
  | some w =>
      cases w with
      | obj X =>
          refine ⟨alSetAll X (modelJsonPairs dm), rfl, fun p hp => ?_⟩
          rw [alGet_alSetAll hnd, alGet_of_mem_nodup hnd hp]
      | null => exact ⟨modelJsonPairs dm, rfl, fun p hp => alGet_of_mem_nodup hnd hp⟩
      | bool b => exact ⟨modelJsonPairs dm, rfl, fun p hp => alGet_of_mem_nodup hnd hp⟩
      | num n => exact ⟨modelJsonPairs dm, rfl, fun p hp => alGet_of_mem_nodup hnd hp⟩
      | str s => exact ⟨modelJsonPairs dm, rfl, fun p hp => alGet_of_mem_nodup hnd hp⟩
      | arr e => exact ⟨modelJsonPairs dm, rfl, fun p hp => alGet_of_mem_nodup hnd hp⟩

theorem mergeModelEntry_stable {id : String} {dm : ModelDef}
    (h : catalogGet id = some dm) (old : Option Json) :
    mergeModelEntry (some (mergeModelEntry old dm)) dm = mergeModelEntry old dm := by
  obtain ⟨Y, hY, hall⟩ := mergeModelEntry_spec h old
  rw [hY]
  show Json.obj (alSetAll Y (modelJsonPairs dm)) = .obj Y
  rw [alSetAll_id hall]

theorem foldMerge_get (ids : List String) (M : List (String × Json)) (id : String) :
    alGet id (foldMerge ids M) =
      match catalogGet id with
      | some dm =>
          if id ∈ ids then some (mergeModelEntry (alGet id M) dm) else alGet id M
      | none => alGet id M := by
  induction ids generalizing M with
  | nil => cases catalogGet id <;> simp [foldMerge]
  | cons i rest ih =>
      have step : foldMerge (i :: rest) M = foldMerge rest (mergeModelStep M i) := rfl
      rw [step, ih]
      cases hc : catalogGet id with
      | none =>
          simp only []
          unfold mergeModelStep
          cases hci : catalogGet i with
          | none => rfl
          | some dmi =>
              by_cases hii : i = id
              · subst hii
                rw [hci] at hc
                cases hc
              · exact alGet_alSet_ne (fun he => hii he.symm) _ _
      | some dm =>
          simp only []
          by_cases hmem : id ∈ rest
          · rw [if_pos hmem, if_pos (List.mem_cons_of_mem i hmem)]
            by_cases hii : i = id
            · subst hii
              unfold mergeModelStep
              rw [hc, alGet_alSet_self, mergeModelEntry_stable hc]
            · unfold mergeModelStep
              cases hci : catalogGet i with
              | none => rfl
              | some dmi => rw [alGet_alSet_ne (fun he => hii he.symm)]
          · by_cases hii : i = id
            · subst hii
              rw [if_neg hmem, if_pos (List.mem_cons_self i rest)]
              unfold mergeModelStep
              rw [hc, alGet_alSet_self]
            · have hnotin : id ∉ i :: rest := by
                intro hcon
                rcases List.mem_cons.mp hcon with h1 | h1
                · exact hii h1.symm
                · exact hmem h1
              rw [if_neg hmem, if_neg hnotin]
              unfold mergeModelStep
              cases hci : catalogGet i with
              | none => rfl
              | some dmi => exact alGet_alSet_ne (fun he => hii he.symm) _ _

theorem foldMerge_post {ids : List String} (M : List (String × Json)) :
    ∀ id ∈ ids, ∀ dm, catalogGet id = some dm →
      ∃ Y, alGet id (foldMerge ids M) = some (.obj Y) ∧
        ∀ p ∈ modelJsonPairs dm, alGet p.1 Y = some p.2 := by
  intro id hid dm hdm
  obtain ⟨Y, hY, hall⟩ := mergeModelEntry_spec hdm (alGet id M)
  refine ⟨Y, ?_, hall⟩
  rw [foldMerge_get, hdm]
  simp only [if_pos hid, hY]

theorem foldMerge_id {ids : List String} {M : List (String × Json)}
    (h : ∀ id ∈ ids, ∀ dm, catalogGet id = some dm →
      ∃ Y, alGet id M = some (.obj Y) ∧
        ∀ p ∈ modelJsonPairs dm, alGet p.1 Y = some p.2) :
    foldMerge ids M = M := by
  induction ids with
  | nil => rfl
  | cons i rest ih =>
      have step : foldMerge (i :: rest) M = foldMerge rest (mergeModelStep M i) := rfl
      have hstep : mergeModelStep M i = M := by
        unfold mergeModelStep
        cases hci : catalogGet i with
        | none => rfl
        | some dmi =>
            obtain ⟨Y, hY, hall⟩ := h i (List.mem_cons_self i rest) dmi hci
            rw [hY]
            show alSet i (.obj (alSetAll Y (modelJsonPairs dmi))) M = M
            rw [alSetAll_id hall, alSet_self hY]
      rw [step, hstep, ih (fun id hid => h id (List.mem_cons_of_mem i hid))]

/-! ### Idempotence of the entry merge -/

theorem optionsAfterVal_stable (old : Option Json) (nu a : String) :
    optionsAfterVal (some (optionsAfterVal old nu a)) nu a =
      optionsAfterVal old nu a := by
  cases old with
  | none =>
      show Json.obj (alSet "apiKey" (.str a) (alSet "baseURL" (.str nu)
        [("baseURL", .str nu), ("apiKey", .str a)])) = optionsAfterVal none nu a
      rfl
  | some w =>
      cases w with
      | obj o =>
          show Json.obj (alSet "apiKey" (.str a) (alSet "baseURL" (.str nu)
              (alSet "apiKey" (.str a) (alSet "baseURL" (.str nu) o))))
            = optionsAfterVal (some (.obj o)) nu a
          have h1 : alGet "baseURL" (alSet "apiKey" (Json.str a)
              (alSet "baseURL" (Json.str nu) o)) = some (.str nu) := by
            rw [alGet_alSet_ne (show "baseURL" ≠ "apiKey" by decide), alGet_alSet_self]
          rw [alSet_self h1, alSet_self (alGet_alSet_self "apiKey" (Json.str a) _)]
          rfl
      | null => rfl
      | bool b => rfl
      | num n => rfl
      | str s => rfl
      | arr e => rfl

theorem modelsAfterVal_stable (old : Option Json) (m : Option (List String)) :
    modelsAfterVal (some (modelsAfterVal old m)) m = modelsAfterVal old m := by
  have key : ∀ M0 : List (String × Json),
      foldMerge (idsOf m) (foldMerge (idsOf m) M0) = foldMerge (idsOf m) M0 :=
    fun M0 => foldMerge_id (foldMerge_post M0)
  cases old with
  | none =>
      show Json.obj (foldMerge (idsOf m) (foldMerge (idsOf m) []))
        = modelsAfterVal none m
      rw [key]
      rfl
  | some w =>
      cases w with
      | obj M =>
          show Json.obj (foldMerge (idsOf m) (foldMerge (idsOf m) M))
            = modelsAfterVal (some (.obj M)) m
          rw [key]
          rfl
      | null => rfl
      | bool b => rfl
      | num n => rfl
      | str s => rfl
      | arr e => rfl

theorem agAfter_idem (A : List (String × Json)) (nu a : String)
    (m : Option (List String)) :
    agAfter (agAfter A nu a m) nu a m = agAfter A nu a m := by
  have h1 := agAfter_get_npm A nu a m
  have h2 := agAfter_get_name A nu a m
  have h3 := agAfter_get_options A nu a m
  have h4 := agAfter_get_models A nu a m
  show alSet "models" (modelsAfterVal (alGet "models" (agAfter A nu a m)) m)
      (alSet "options" (optionsAfterVal (alGet "options" (agAfter A nu a m)) nu a)
        (alSet "name" (.str "Antigravity Manager")
          (alSet "npm" (.str "@ai-sdk/anthropic") (agAfter A nu a m))))
    = agAfter A nu a m
  rw [alSet_self h1, alSet_self h2, h3, h4, optionsAfterVal_stable,
    modelsAfterVal_stable, alSet_self h3, alSet_self h4]

/-! ### Facts about the merged document -/

theorem apply_sync_isObj (d : Json) (u a : String) (m : Option (List String)) :
    (apply_sync_to_config d u a m).isObj = true := by
  rw [apply_sync_eq, Json.isObj_set, syncBase_isObj]

theorem apply_sync_get_provider (d : Json) (u a : String) (m : Option (List String)) :
    (apply_sync_to_config d u a m).get "provider" =
      some (.obj (alModify ANTIGRAVITY_PROVIDER_ID
        (fun ag => syncAgEntry ag (normalize_opencode_base_url u) a m)
        (ensure_provider_object (preProviderList d) ANTIGRAVITY_PROVIDER_ID))) := by
  rw [apply_sync_eq]
  exact Json.get_set_self (syncBase_isObj d) _ _

theorem apply_sync_get_schema_isSome (d : Json) (u a : String)
    (m : Option (List String)) :
    ((apply_sync_to_config d u a m).get "$schema").isSome = true := by
  rw [apply_sync_eq, Json.get_set_ne (show "$schema" ≠ "provider" by decide),
    syncBase_get_schema]
  rfl

theorem apply_sync_provider_ag (d : Json) (u a : String) (m : Option (List String)) :
    alGet ANTIGRAVITY_PROVIDER_ID
      (alModify ANTIGRAVITY_PROVIDER_ID
        (fun ag => syncAgEntry ag (normalize_opencode_base_url u) a m)
        (ensure_provider_object (preProviderList d) ANTIGRAVITY_PROVIDER_ID)) =
      some (.obj (agAfter (preAgList d) (normalize_opencode_base_url u) a m)) := by
  rw [alGet_alModify_self, ensure_provider_object_get]
  show some (syncAgEntry (.obj (preAgList d)) (normalize_opencode_base_url u) a m) = _
  rw [syncAgEntry_eq]

theorem ensure_provider_object_id {P : List (String × Json)} {name : String}
    {a : List (String × Json)} (h : alGet name P = some (.obj a)) :
    ensure_provider_object P name = P := by
  unfold ensure_provider_object
  rw [h]
  simp [Json.isObj]

theorem ensure_object_id {c : Json} {k : String} {p : List (String × Json)}
    (h : c.get k = some (.obj p)) : ensure_object c k = c := by
  unfold ensure_object
  rw [h]
  simp [Json.isObj]

theorem schemaStep_id {c : Json} (h : (c.get "$schema").isSome = true) :
    schemaStep c = c := by
  unfold schemaStep
  cases hx : c.get "$schema" with
  | none => rw [hx] at h; cases h
  | some w => simp [hx]

theorem coerceRoot_id {c : Json} (h : c.isObj = true) : coerceRoot c = c := by
  unfold coerceRoot
  simp [h]

/-- C1: merging is idempotent — applying `apply_sync_to_config` twice with
the same endpoint, credential and model selector gives the same document as
applying it once, for every input document. -/
theorem apply_sync_idempotent (d : Json) (u a : String) (m : Option (List String)) :
    apply_sync_to_config (apply_sync_to_config d u a m) u a m
      = apply_sync_to_config d u a m := by
  have hobj := apply_sync_isObj d u a m
  have hprov := apply_sync_get_provider d u a m
  have hag := apply_sync_provider_ag d u a m
  have hschema := apply_sync_get_schema_isSome d u a m
  rw [apply_sync_eq (apply_sync_to_config d u a m) u a m]
  have hbase : syncBase (apply_sync_to_config d u a m)
      = apply_sync_to_config d u a m := by
    unfold syncBase
    rw [coerceRoot_id hobj, schemaStep_id hschema, ensure_object_id hprov]
  have hpre : preProviderList (apply_sync_to_config d u a m)
      = alModify ANTIGRAVITY_PROVIDER_ID
          (fun ag => syncAgEntry ag (normalize_opencode_base_url u) a m)
          (ensure_provider_object (preProviderList d) ANTIGRAVITY_PROVIDER_ID) := by
    unfold preProviderList
    rw [hprov]
    rfl
  rw [hbase, hpre, ensure_provider_object_id hag,
    alModify_id hag (by simp only [syncAgEntry_eq, agAfter_idem])]
  exact Json.set_self hprov

/-! ### Frame properties (merge and clear touch only their keys) -/

theorem apply_clear_get_other {k : String} (h : k ≠ "provider") (d : Json)
    (p : Option String) (cl : Bool) :
    (apply_clear_to_config d p cl).get k = d.get k := by
  unfold apply_clear_to_config
  cases hx : d.get "provider" with
  | none => rfl
  | some w =>
      cases w with
      | obj P =>
          have aux : ∀ P2 : List (String × Json),
              (if P2.isEmpty = true then d.remove "provider"
                else d.set "provider" (.obj P2)).get k = d.get k := by
            intro P2
            split
            · exact Json.get_remove_ne h d
            · exact Json.get_set_ne h d _
          exact aux _
      | null => rfl
      | bool b => rfl
      | num n => rfl
      | str s => rfl
      | arr e => rfl

/-- C2: outside `$schema` and `provider`, a merge and a clear-after-merge
preserve every top-level key unchanged. -/
theorem sync_clear_frame (d : Json) (u a : String) (m : Option (List String))
    (p : Option String) (cl : Bool) {k : String}
    (h1 : k ≠ "$schema") (h2 : k ≠ "provider") :
    (apply_sync_to_config d u a m).get k = d.get k ∧
      (apply_clear_to_config (apply_sync_to_config d u a m) p cl).get k
        = d.get k := by
  have hsync : (apply_sync_to_config d u a m).get k = d.get k := by
    rw [apply_sync_eq, Json.get_set_ne h2, syncBase_get_other h1 h2]
  exact ⟨hsync, by rw [apply_clear_get_other h2, hsync]⟩

/-- Witness for C2 at a concrete document carrying an unrelated key. -/
theorem sync_clear_frame_witness :
    (apply_sync_to_config (.obj [("theme", .str "dark")]) "http://localhost:3000"
        "k" (some [])).get "theme" = some (.str "dark") ∧
      (apply_clear_to_config (apply_sync_to_config (.obj [("theme", .str "dark")])
          "http://localhost:3000" "k" (some [])) (some "http://localhost:3000")
          true).get "theme" = some (.str "dark") :=
  sync_clear_frame (.obj [("theme", .str "dark")]) "http://localhost:3000" "k"
    (some []) (some "http://localhost:3000") true (by decide) (by decide)

/-- C9: clear is the identity on any document whose `provider` value is
absent or not an object (including non-object roots); it never coerces and
never fails. -/
theorem apply_clear_identity (d : Json) (p : Option String) (cl : Bool)
    (h : ∀ v, d.get "provider" = some v → v.isObj = false) :
    apply_clear_to_config d p cl = d := by
  unfold apply_clear_to_config
  cases hx : d.get "provider" with
  | none => rfl
  | some w =>
      cases w with
      | obj P =>
          have hfalse := h _ hx
          simp [Json.isObj] at hfalse
      | null => rfl
      | bool b => rfl
      | num n => rfl
      | str s => rfl
      | arr e => rfl

/-- Witness for C9 at a concrete document without a `provider` key. -/
theorem apply_clear_identity_witness :
    apply_clear_to_config (.obj [("a", .null)]) (some "http://localhost:3000")
        true = .obj [("a", .null)] :=
  apply_clear_identity (.obj [("a", .null)]) (some "http://localhost:3000") true
    (fun _ hv => Option.noConfusion hv)

/-! ### The managed models map of a merged document -/

theorem optBind_some {α β : Type} (a : α) (f : α → Option β) :
    (some a).bind f = f a := rfl

@[simp] theorem Json.get_obj (l : List (String × Json)) (k : String) :
    (Json.obj l).get k = alGet k l := rfl

theorem managedModelEntry_sync (d : Json) (u a : String)
    (m : Option (List String)) (id : String) :
    managedModelEntry (apply_sync_to_config d u a m) id =
      (modelsAfterVal (alGet "models" (preAgList d)) m).get id := by
  have h1 := apply_sync_get_provider d u a m
  have h2 := apply_sync_provider_ag d u a m
  have h3 := agAfter_get_models (preAgList d) (normalize_opencode_base_url u) a m
  unfold managedModelEntry
  rw [h1]
  simp only [optBind_some, Json.get_obj, h2, h3]

theorem managedModelEntry_pre (d : Json) (id : String) :
    managedModelEntry d id =
      match alGet "models" (preAgList d) with
      | some w => w.get id
      | none => none := by
  unfold managedModelEntry preAgList preProviderList
  cases hp : d.get "provider" with
  | none => rfl
  | some w =>
      cases w with
      | obj P =>
          simp only [optBind_some, Json.get_obj]
          cases hag : alGet ANTIGRAVITY_PROVIDER_ID P with
          | none => rfl
          | some v =>
              cases v with
              | obj A =>
                  simp only [optBind_some, Json.get_obj]
                  cases hm : alGet "models" A with
                  | none => rfl
                  | some mv => rfl
              | null => rfl
              | bool b => rfl
              | num n => rfl
              | str s => rfl
              | arr e => rfl
      | null => rfl
      | bool b => rfl
      | num n => rfl
      | str s => rfl
      | arr e => rfl

/-- C10: an id in the explicit selector that is not a catalog id leads to no
insertion: the managed provider's entry under that id is exactly what the
input document had there, and the merge still succeeds. -/
theorem unknown_ids_ignored (d : Json) (u a : String) (ids : List String)
    (id : String) (_hmem : id ∈ ids) (hcat : catalogGet id = none) :
    managedModelEntry (apply_sync_to_config d u a (some ids)) id
      = managedModelEntry d id := by
  rw [managedModelEntry_sync, managedModelEntry_pre]
  cases hm : alGet "models" (preAgList d) with
  | none =>
      show (Json.obj (foldMerge (idsOf (some ids)) [])).get id = none
      rw [Json.get_obj, foldMerge_get, hcat]
      rfl
  | some w =>
      cases w with
      | obj M =>
          show (Json.obj (foldMerge (idsOf (some ids)) M)).get id
            = (Json.obj M).get id
          rw [Json.get_obj, Json.get_obj, foldMerge_get, hcat]
      | null => rfl
      | bool b => rfl
      | num n => rfl
      | str s => rfl
      | arr e => rfl

/-- Witness for C10: syncing with the unknown selector id `nosuch` leaves
the managed models free of it. -/
theorem unknown_ids_ignored_witness :
    managedModelEntry (apply_sync_to_config (.obj []) "http://localhost:3000"
        "k" (some ["nosuch"])) "nosuch" = managedModelEntry (.obj []) "nosuch" :=
  unknown_ids_ignored (.obj []) "http://localhost:3000" "k" ["nosuch"] "nosuch"
    (by decide) rfl

/-- C4: for every selected id present in the catalog, an existing object
entry is shallow-merged (every catalog field overwrites, every other
existing field survives), a non-object entry is replaced by the full catalog
entry, a missing entry gets the full catalog entry inserted; every id outside
the selector keeps exactly its previous value. -/
theorem model_merge_rule (d : Json) (u a : String) (ids : List String)
    (M : List (String × Json)) (hM : preModels d = some M) :
    (∀ id dm, id ∈ ids → catalogGet id = some dm →
      (∀ X, alGet id M = some (.obj X) →
        ∃ Y, managedModelEntry (apply_sync_to_config d u a (some ids)) id
            = some (.obj Y) ∧
          ∀ f, alGet f Y =
            match alGet f (modelJsonPairs dm) with
            | some v => some v
            | none => alGet f X) ∧
      (∀ w, alGet id M = some w → w.isObj = false →
        managedModelEntry (apply_sync_to_config d u a (some ids)) id
          = some (build_model_json dm)) ∧
      (alGet id M = none →
        managedModelEntry (apply_sync_to_config d u a (some ids)) id
          = some (build_model_json dm))) ∧
    (∀ id, id ∉ ids →
      managedModelEntry (apply_sync_to_config d u a (some ids)) id
        = alGet id M) := by
  have key : ∀ id, managedModelEntry (apply_sync_to_config d u a (some ids)) id
      = alGet id (foldMerge ids M) := by
    intro id
    rw [managedModelEntry_sync]
    unfold preModels at hM
    cases hm : alGet "models" (preAgList d) with
    | none =>
        rw [hm] at hM
        injection hM with hM2
        subst hM2
        rfl
    | some w =>
        rw [hm] at hM
        cases w with
        | obj M0 =>
            injection hM with hM2
            subst hM2
            rfl
        | null => cases hM
        | bool b => cases hM
        | num n => cases hM
        | str s => cases hM
        | arr e => cases hM
  constructor
  · intro id dm hmem hdm
    have hchar : managedModelEntry (apply_sync_to_config d u a (some ids)) id
        = some (mergeModelEntry (alGet id M) dm) := by
      rw [key id, foldMerge_get, hdm]
      simp only [if_pos hmem]
    refine ⟨?_, ?_, ?_⟩
    · intro X hX
      rw [hX] at hchar
      refine ⟨alSetAll X (modelJsonPairs dm), hchar, fun f => ?_⟩
      rw [alGet_alSetAll (catalogGet_pairs_nodup hdm)]
      cases alGet f (modelJsonPairs dm) <;> rfl
    · intro w hw hwobj
      rw [hw] at hchar
      cases w with
      | obj X => simp [Json.isObj] at hwobj
      | null => exact hchar
      | bool b => exact hchar
      | num n => exact hchar
      | str s => exact hchar
      | arr e => exact hchar
    · intro hnone
      rw [hnone] at hchar
      exact hchar
  · intro id hnot
    rw [key id, foldMerge_get]
    cases hc : catalogGet id with
    | none => rfl
    | some dm => simp only [if_neg hnot]

/-- Witness for C4: syncing an empty document with the selector
`gemini-2.5-pro` inserts the full catalog entry for it. -/
theorem model_merge_rule_witness :
    managedModelEntry (apply_sync_to_config (.obj []) "http://localhost:3000"
        "k" (some ["gemini-2.5-pro"])) "gemini-2.5-pro"
      = some (build_model_json
          { id := "gemini-2.5-pro", name := "Gemini 2.5 Pro",
            contextLimit := 1048576, outputLimit := 65536,
            inputModalities := ["text", "image", "pdf"],
            outputModalities := ["text"],
            reasoning := true, variantType := none }) :=
  ((model_merge_rule (.obj []) "http://localhost:3000" "k" ["gemini-2.5-pro"]
      [] rfl).1 "gemini-2.5-pro" _ (by decide) rfl).2.2 rfl

/-- C3 (amended): the merge always yields a managed entry object with string
`npm` and `name`; when the pre-existing `options` (resp. `models`) value is
absent or an object, the result holds an `options` object with the normalized
`baseURL` and the `apiKey` (resp. a `models` object); but a pre-existing
non-object `options` or `models` value is left in place unchanged, not
coerced. -/
theorem apply_sync_shape (d : Json) (u a : String) (m : Option (List String)) :
    ∃ P A, (apply_sync_to_config d u a m).get "provider" = some (.obj P) ∧
      alGet ANTIGRAVITY_PROVIDER_ID P = some (.obj A) ∧
      alGet "npm" A = some (.str "@ai-sdk/anthropic") ∧
      alGet "name" A = some (.str "Antigravity Manager") ∧
      ((alGet "options" (preAgList d)).all Json.isObj = true →
        ∃ o, alGet "options" A = some (.obj o) ∧
          alGet "baseURL" o = some (.str (normalize_opencode_base_url u)) ∧
          alGet "apiKey" o = some (.str a)) ∧
      (∀ w, alGet "options" (preAgList d) = some w → w.isObj = false →
        alGet "options" A = some w) ∧
      ((alGet "models" (preAgList d)).all Json.isObj = true →
        ∃ Mo, alGet "models" A = some (.obj Mo)) ∧
      (∀ w, alGet "models" (preAgList d) = some w → w.isObj = false →
        alGet "models" A = some w) := by
  refine ⟨_, _, apply_sync_get_provider d u a m, apply_sync_provider_ag d u a m,
    agAfter_get_npm _ _ _ _, agAfter_get_name _ _ _ _, ?_, ?_, ?_, ?_⟩
  · intro hall
    rw [agAfter_get_options]
    cases ho : alGet "options" (preAgList d) with
    | none =>
        exact ⟨[("baseURL", .str (normalize_opencode_base_url u)),
          ("apiKey", .str a)], rfl, rfl, rfl⟩
    | some w =>
        cases w with
        | obj o0 =>
            refine ⟨alSet "apiKey" (.str a)
              (alSet "baseURL" (.str (normalize_opencode_base_url u)) o0),
              rfl, ?_, ?_⟩
            · rw [alGet_alSet_ne (show "baseURL" ≠ "apiKey" by decide),
                alGet_alSet_self]
            · rw [alGet_alSet_self]
        | null => rw [ho] at hall; cases hall
        | bool b => rw [ho] at hall; cases hall
        | num n => rw [ho] at hall; cases hall
        | str s => rw [ho] at hall; cases hall
        | arr e => rw [ho] at hall; cases hall
  · intro w hw hwn
    rw [agAfter_get_options, hw]
    cases w with
    | obj o0 => simp [Json.isObj] at hwn
    | null => rfl
    | bool b => rfl
    | num n => rfl
    | str s => rfl
    | arr e => rfl
  · intro hall
    rw [agAfter_get_models]
    cases hmo : alGet "models" (preAgList d) with
    | none => exact ⟨foldMerge (idsOf m) [], rfl⟩
    | some w =>
        cases w with
        | obj M0 => exact ⟨foldMerge (idsOf m) M0, rfl⟩
        | null => rw [hmo] at hall; cases hall
        | bool b => rw [hmo] at hall; cases hall
        | num n => rw [hmo] at hall; cases hall
        | str s => rw [hmo] at hall; cases hall
        | arr e => rw [hmo] at hall; cases hall
  · intro w hw hwn
    rw [agAfter_get_models, hw]
    cases w with
    | obj M0 => simp [Json.isObj] at hwn
    | null => rfl
    | bool b => rfl
    | num n => rfl
    | str s => rfl
    | arr e => rfl

/-- Counterexample for C3 as stated: merging a document whose managed entry
holds the string "x" under `options` leaves that string in place — the result
does not have the required shape (`options` object with `baseURL`/`apiKey`),
so the merge does not coerce every worst-case input. -/
theorem apply_sync_shape_counterexample :
    hasRequiredShape (apply_sync_to_config
      (.obj [("provider", .obj [("antigravity-manager",
        .obj [("options", .str "x")])])])
      "http://localhost:3000" "key" (some [])) = false := by rfl

/-- Witness for C3 (amended) on the empty document: the managed entry has the
full required shape there. -/
theorem apply_sync_shape_witness :
    ∃ P A, (apply_sync_to_config (.obj []) "http://localhost:3000" "k"
        (some [])).get "provider" = some (.obj P) ∧
      alGet ANTIGRAVITY_PROVIDER_ID P = some (.obj A) ∧
      alGet "npm" A = some (.str "@ai-sdk/anthropic") ∧
      ∃ o, alGet "options" A = some (.obj o) ∧
        alGet "baseURL" o = some (.str "http://localhost:3000/v1") ∧
        alGet "apiKey" o = some (.str "k") := by
  obtain ⟨P, A, h1, h2, h3, h4, h5, h6, h7, h8⟩ :=
    apply_sync_shape (.obj []) "http://localhost:3000" "k" (some [])
  obtain ⟨o, ho1, ho2, ho3⟩ := h5 (by rfl)
  exact ⟨P, A, h1, h2, h3, o, ho1, ho2.trans (by rfl), ho3⟩

/-! ### Account reconciliation -/

theorem forall2_map {α β : Type} (f : α → β) (P : β → α → Prop) (l : List α)
    (h : ∀ x ∈ l, P (f x) x) : List.Forall₂ P (l.map f) l := by
  induction l with
  | nil => exact List.Forall₂.nil
  | cons hd tl ih =>
      exact List.Forall₂.cons (h hd (List.mem_cons_self hd tl))
        (ih (fun x hx => h x (List.mem_cons_of_mem hd hx)))

theorem reconcileAccount_ok (byToken byEmail : List (String × PluginAccount))
    (now : Int) (x : AppAccount) :
    reconciledOk byToken byEmail now (reconcileAccount byToken byEmail now x) x := by
  unfold reconciledOk reconcileAccount
  cases hE : lookupExisting byToken byEmail x with
  | some ex =>
      exact ⟨rfl, rfl, rfl, rfl, rfl, rfl, rfl, rfl, rfl, rfl, rfl, rfl, rfl,
        rfl, rfl⟩
  | none =>
      exact ⟨rfl, rfl, rfl, rfl, rfl, rfl, rfl, rfl, rfl, rfl, rfl, rfl, rfl,
        rfl, rfl⟩

/-- C5: the reconciled accounts pair off one-to-one, in order, with the
non-disabled authoritative accounts, and each output record satisfies the
field-level preservation contract: authoritative identity fields, existing
`addedAt` and externally-owned state on a match, `lastUsed` as the maximum
of both sides, and fresh defaults (`addedAt = now`, state absent) on a miss. -/
theorem reconcile_preserves_state (existingAccounts : List PluginAccount)
    (eai : Int) (fam : List (String × Int)) (apps : List AppAccount) (now : Int) :
    List.Forall₂
      (reconciledOk (buildByRefreshToken existingAccounts)
        (buildByEmail existingAccounts) now)
      (sync_accounts_core existingAccounts eai fam apps now).accounts
      (apps.filter (fun x => !(x.disabled || x.proxyDisabled))) := by
  exact forall2_map _ _ _
    (fun x _ => reconcileAccount_ok (buildByRefreshToken existingAccounts)
      (buildByEmail existingAccounts) now x)

/-! ### Active-index clamping -/

theorem clampIndex_eq (i c : Int) :
    clampIndex i c = if 0 < c then max 0 (min i (c - 1)) else 0 := by
  unfold clampIndex
  by_cases hc : c > 0
  · have hc2 : 0 < c := hc
    rw [if_pos hc, if_pos hc2]
    by_cases h1 : i < 0
    · rw [if_pos h1]
      omega
    · rw [if_neg h1]
      by_cases h2 : i > c - 1
      · rw [if_pos h2]
        omega
      · rw [if_neg h2]
        omega
  · have hc2 : ¬0 < c := hc
    rw [if_neg hc, if_neg hc2]

theorem alGet_map_clamp (count : Int) (k : String) (l : List (String × Int)) :
    alGet k (l.map (fun kv => (kv.1, clampIndex kv.2 count)))
      = (alGet k l).map (fun x => clampIndex x count) := by
  induction l with
  | nil => rfl
  | cons hd tl ih =>
      cases hd with
      | mk k1 v1 =>
        by_cases h1 : k1 = k <;> simp_all [alGet]

theorem ensureStep_get_of_some {name : String} {l : List (String × Int)}
    {v : Int} (h : alGet name l = some v) (clamped : Int) :
    alGet name (ensureStep name clamped l) = some v := by
  unfold ensureStep
  rw [h]
  simpa using h

theorem ensureStep_get_of_none {name : String} {l : List (String × Int)}
    (h : alGet name l = none) (clamped : Int) :
    alGet name (ensureStep name clamped l) = some clamped := by
  unfold ensureStep
  rw [h]
  simp [alGet_alSet_self]

theorem ensureStep_get_ne {k name : String} (hk : k ≠ name)
    (clamped : Int) (l : List (String × Int)) :
    alGet k (ensureStep name clamped l) = alGet k l := by
  unfold ensureStep
  split
  · rfl
  · rw [alGet_alSet_ne hk]

theorem ensureStep_get_pres {k name : String} {l : List (String × Int)}
    {v : Int} (h : alGet k l = some v) (clamped : Int) :
    alGet k (ensureStep name clamped l) = some v := by
  by_cases hk : k = name
  · subst hk
    exact ensureStep_get_of_some h clamped
  · rw [ensureStep_get_ne hk, h]

theorem clampFamily_get_mem {fam : List (String × Int)} {k : String} {i : Int}
    (h : alGet k fam = some i) (count clamped : Int) :
    alGet k (clampFamily fam count clamped) = some (clampIndex i count) := by
  unfold clampFamily
  have h1 : alGet k (fam.map (fun kv => (kv.1, clampIndex kv.2 count)))
      = some (clampIndex i count) := by
    rw [alGet_map_clamp, h]
    rfl
  exact ensureStep_get_pres (ensureStep_get_pres h1 clamped) clamped

theorem clampFamily_get_default (fam : List (String × Int)) (count clamped : Int) :
    ∀ name, name = "claude" ∨ name = "gemini" →
      (alGet name (clampFamily fam count clamped)).isSome = true ∧
      (alGet name fam = none →
        alGet name (clampFamily fam count clamped) = some clamped) := by
  have hmapnone : ∀ name, alGet name fam = none →
      alGet name (fam.map (fun kv => (kv.1, clampIndex kv.2 count))) = none := by
    intro name hn
    rw [alGet_map_clamp, hn]
    rfl
  intro name hname
  unfold clampFamily
  rcases hname with hname | hname <;> subst hname
  · constructor
    · cases hc : alGet "claude" (fam.map (fun kv => (kv.1, clampIndex kv.2 count))) with
      | some v =>
          rw [ensureStep_get_pres (ensureStep_get_of_some hc clamped) clamped]
          rfl
      | none =>
          rw [ensureStep_get_pres (ensureStep_get_of_none hc clamped) clamped]
          rfl
    · intro hn
      exact ensureStep_get_pres
        (ensureStep_get_of_none (hmapnone "claude" hn) clamped) clamped
  · constructor
    · cases hc : alGet "gemini"
        (ensureStep "claude" clamped (fam.map (fun kv => (kv.1, clampIndex kv.2 count)))) with
      | some v =>
          rw [ensureStep_get_of_some hc clamped]
          rfl
      | none =>
          rw [ensureStep_get_of_none hc clamped]
          rfl
    · intro hn
      have hc : alGet "gemini"
          (ensureStep "claude" clamped (fam.map (fun kv => (kv.1, clampIndex kv.2 count))))
          = none := by
        rw [ensureStep_get_ne (show "gemini" ≠ "claude" by decide)]
        exact hmapnone "gemini" hn
      exact ensureStep_get_of_none hc clamped

/-- C7: the output `activeIndex` is the existing one clamped into
`[0, count-1]` (0 when there are no accounts); every carried-over family
index is clamped the same way; and `claude` and `gemini` entries always
exist, defaulting to the clamped `activeIndex` when absent from the input. -/
theorem active_index_clamped (existingAccounts : List PluginAccount) (eai : Int)
    (fam : List (String × Int)) (apps : List AppAccount) (now : Int) (count : Int)
    (hcount : count =
      ((sync_accounts_core existingAccounts eai fam apps now).accounts.length : Int)) :
    ((sync_accounts_core existingAccounts eai fam apps now).activeIndex
        = if 0 < count then max 0 (min eai (count - 1)) else 0) ∧
      (∀ k i, alGet k fam = some i →
        alGet k (sync_accounts_core existingAccounts eai fam apps now).activeIndexByFamily
          = some (if 0 < count then max 0 (min i (count - 1)) else 0)) ∧
      ((alGet "claude"
        (sync_accounts_core existingAccounts eai fam apps now).activeIndexByFamily).isSome
          = true) ∧
      ((alGet "gemini"
        (sync_accounts_core existingAccounts eai fam apps now).activeIndexByFamily).isSome
          = true) ∧
      (alGet "claude" fam = none →
        alGet "claude" (sync_accounts_core existingAccounts eai fam apps now).activeIndexByFamily
          = some (sync_accounts_core existingAccounts eai fam apps now).activeIndex) ∧
      (alGet "gemini" fam = none →
        alGet "gemini" (sync_accounts_core existingAccounts eai fam apps now).activeIndexByFamily
          = some (sync_accounts_core existingAccounts eai fam apps now).activeIndex) := by
  subst hcount
  refine ⟨?_, ?_, ?_, ?_, ?_, ?_⟩
  · rw [show (sync_accounts_core existingAccounts eai fam apps now).activeIndex
        = clampIndex eai
          ((sync_accounts_core existingAccounts eai fam apps now).accounts.length : Int)
      from rfl, clampIndex_eq]
  · intro k i hki
    rw [show (sync_accounts_core existingAccounts eai fam apps now).activeIndexByFamily
        = clampFamily fam
          ((sync_accounts_core existingAccounts eai fam apps now).accounts.length : Int)
          (sync_accounts_core existingAccounts eai fam apps now).activeIndex
      from rfl, clampFamily_get_mem hki, clampIndex_eq]
  · exact (clampFamily_get_default fam _ _ "claude" (Or.inl rfl)).1
  · exact (clampFamily_get_default fam _ _ "gemini" (Or.inr rfl)).1
  · exact (clampFamily_get_default fam _ _ "claude" (Or.inl rfl)).2
  · exact (clampFamily_get_default fam _ _ "gemini" (Or.inr rfl)).2

/-! ### Legacy provider cleanup -/

theorem Json.isObj_of_get {d : Json} {k : String} {v : Json}
    (h : d.get k = some v) : d.isObj = true := by
  cases d with
  | obj l => rfl
  | null => exact Option.noConfusion h
  | bool b => exact Option.noConfusion h
  | num n => exact Option.noConfusion h
  | str s => exact Option.noConfusion h
  | arr e => exact Option.noConfusion h

theorem isEmpty_false_of_alGet {α : Type} {k : String} {v : α}
    {l : List (String × α)} (h : alGet k l = some v) : l.isEmpty = false := by
  cases l with
  | nil => exact Option.noConfusion h
  | cons hd tl => rfl

theorem alGet_alRemove_self {α : Type} (k : String) (l : List (String × α)) :
    alGet k (alRemove k l) = none := by
  induction l with
  | nil => rfl
  | cons hd tl ih =>
      cases hd with
      | mk k1 v1 =>
        by_cases h1 : k1 = k
        · simp [alRemove, h1, ih]
        · simp [alRemove, alGet, h1, ih]

theorem cleanup_models_step_get_ne {k : String} (h : k ≠ "models")
    (P : List (String × Json)) :
    alGet k (cleanup_models_step P) = alGet k P := by
  unfold cleanup_models_step
  cases hm : alGet "models" P with
  | none => rfl
  | some w =>
      cases w with
      | obj models =>
          show alGet k
              (if (ANTIGRAVITY_MODEL_IDS.foldl (fun ms id => alRemove id ms)
                    models).isEmpty = true
                then alRemove "models" (alSet "models"
                  (.obj (ANTIGRAVITY_MODEL_IDS.foldl (fun ms id => alRemove id ms)
                    models)) P)
                else alSet "models"
                  (.obj (ANTIGRAVITY_MODEL_IDS.foldl (fun ms id => alRemove id ms)
                    models)) P)
            = alGet k P
          split
          · rw [alGet_alRemove_ne h, alGet_alSet_ne h]
          · rw [alGet_alSet_ne h]
      | null => rfl
      | bool b => rfl
      | num n => rfl
      | str s => rfl
      | arr e => rfl

theorem cleanup_options_step_get {opts : List (String × Json)}
    (P : List (String × Json)) (proxy : String)
    (hopts : alGet "options" P = some (.obj opts)) :
    alGet "options" (cleanup_options_step P proxy) =
      (if (if shouldCleanupOf opts proxy = true
            then alRemove "apiKey" (alRemove "baseURL" opts) else opts).isEmpty = true
        then none
        else some (.obj (if shouldCleanupOf opts proxy = true
            then alRemove "apiKey" (alRemove "baseURL" opts) else opts))) := by
  unfold cleanup_options_step
  rw [hopts]
  show alGet "options"
      (if (if shouldCleanupOf opts proxy = true
            then alRemove "apiKey" (alRemove "baseURL" opts) else opts).isEmpty = true
        then alRemove "options" (alSet "options"
          (.obj (if shouldCleanupOf opts proxy = true
            then alRemove "apiKey" (alRemove "baseURL" opts) else opts)) P)
        else alSet "options"
          (.obj (if shouldCleanupOf opts proxy = true
            then alRemove "apiKey" (alRemove "baseURL" opts) else opts)) P)
    = _
  by_cases hE : (if shouldCleanupOf opts proxy = true
      then alRemove "apiKey" (alRemove "baseURL" opts) else opts).isEmpty = true
  · rw [if_pos hE, if_pos hE]
    exact alGet_alRemove_self _ _
  · rw [if_neg hE, if_neg hE]
    rw [alGet_alSet_self]

/-- C6: legacy cleanup is endpoint-scoped — for `anthropic` and `google`,
when the legacy provider's string `baseURL` matches the proxy endpoint, clear
with `clearLegacy` removes `baseURL` and `apiKey` and drops `options`
entirely when it becomes empty; when the `baseURL` does not match, the
`options` map is left untouched. -/
theorem legacy_cleanup_scoped (d : Json) (proxy name : String)
    (P L opts : List (String × Json))
    (hname : name = "anthropic" ∨ name = "google")
    (hP : d.get "provider" = some (.obj P))
    (hL : alGet name P = some (.obj L))
    (hopts : alGet "options" L = some (.obj opts)) :
    (∀ u1, alGet "baseURL" opts = some (.str u1) →
      base_url_matches u1 proxy = true →
      legacyOptions (apply_clear_to_config d (some proxy) true) name =
        (if (alRemove "apiKey" (alRemove "baseURL" opts)).isEmpty = true then none
          else some (.obj (alRemove "apiKey" (alRemove "baseURL" opts))))) ∧
    (∀ u1, alGet "baseURL" opts = some (.str u1) →
      base_url_matches u1 proxy = false →
      legacyOptions (apply_clear_to_config d (some proxy) true) name
        = some (.obj opts)) := by
  have hAG : name ≠ ANTIGRAVITY_PROVIDER_ID := by
    rcases hname with h | h <;> subst h <;> decide
  have hobj : d.isObj = true := Json.isObj_of_get hP
  have h1 : alGet name (alRemove ANTIGRAVITY_PROVIDER_ID P) = some (.obj L) := by
    rw [alGet_alRemove_ne hAG]
    exact hL
  have h2 : alGet name (alModify "google" (fun p => cleanup_legacy_provider p proxy)
      (alModify "anthropic" (fun p => cleanup_legacy_provider p proxy)
        (alRemove ANTIGRAVITY_PROVIDER_ID P)))
      = some (cleanup_legacy_provider (.obj L) proxy) := by
    rcases hname with h | h <;> subst h
    · rw [alGet_alModify_ne (show "anthropic" ≠ "google" by decide),
        alGet_alModify_self, h1]
      rfl
    · rw [alGet_alModify_self,
        alGet_alModify_ne (show "google" ≠ "anthropic" by decide), h1]
      rfl
  have hne : (alModify "google" (fun p => cleanup_legacy_provider p proxy)
      (alModify "anthropic" (fun p => cleanup_legacy_provider p proxy)
        (alRemove ANTIGRAVITY_PROVIDER_ID P))).isEmpty = false :=
    isEmpty_false_of_alGet h2
  have happ : apply_clear_to_config d (some proxy) true =
      d.set "provider" (.obj (alModify "google"
        (fun p => cleanup_legacy_provider p proxy)
        (alModify "anthropic" (fun p => cleanup_legacy_provider p proxy)
          (alRemove ANTIGRAVITY_PROVIDER_ID P)))) := by
    unfold apply_clear_to_config
    rw [hP]
    show (if (alModify "google" (fun p => cleanup_legacy_provider p proxy)
          (alModify "anthropic" (fun p => cleanup_legacy_provider p proxy)
            (alRemove ANTIGRAVITY_PROVIDER_ID P))).isEmpty = true
        then d.remove "provider"
        else d.set "provider" (.obj (alModify "google"
          (fun p => cleanup_legacy_provider p proxy)
          (alModify "anthropic" (fun p => cleanup_legacy_provider p proxy)
            (alRemove ANTIGRAVITY_PROVIDER_ID P))))) = _
    rw [hne]
    rfl
  have hoptsL : alGet "options" (cleanup_models_step L) = some (.obj opts) := by
    rw [cleanup_models_step_get_ne (by decide)]
    exact hopts
  have hopt : legacyOptions (apply_clear_to_config d (some proxy) true) name
      = alGet "options" (cleanup_options_step (cleanup_models_step L) proxy) := by
    unfold legacyOptions
    rw [happ, Json.get_set_self hobj]
    simp only [optBind_some, Json.get_obj, h2]
    rfl
  constructor
  · intro u1 hu1 hmatch
    have hsc : shouldCleanupOf opts proxy = true := by
      unfold shouldCleanupOf
      rw [hu1]
      exact hmatch
    rw [hopt, cleanup_options_step_get _ _ hoptsL]
    rw [if_pos hsc]
  · intro u1 hu1 hmatch
    have hsc : shouldCleanupOf opts proxy = false := by
      unfold shouldCleanupOf
      rw [hu1]
      exact hmatch
    have hscn : ¬shouldCleanupOf opts proxy = true := by
      rw [hsc]
      exact Bool.false_ne_true
    rw [hopt, cleanup_options_step_get _ _ hoptsL]
    rw [if_neg hscn,
      if_neg (by rw [isEmpty_false_of_alGet hu1]; exact Bool.false_ne_true)]

/-- Witness for C6 on a concrete document: a matching `anthropic` baseURL is
stripped (its `options` becomes empty and is dropped), and a non-matching
one is preserved. -/
theorem legacy_cleanup_scoped_witness :
    legacyOptions (apply_clear_to_config
      (.obj [("provider", .obj [("anthropic", .obj [("options",
        .obj [("baseURL", .str "http://localhost:3000/v1"),
              ("apiKey", .str "key")])])])])
      (some "http://localhost:3000") true) "anthropic" = none := by
  have h := (legacy_cleanup_scoped
    (.obj [("provider", .obj [("anthropic", .obj [("options",
      .obj [("baseURL", .str "http://localhost:3000/v1"),
            ("apiKey", .str "key")])])])])
    "http://localhost:3000" "anthropic"
    [("anthropic", .obj [("options",
      .obj [("baseURL", .str "http://localhost:3000/v1"),
            ("apiKey", .str "key")])])]
    [("options", .obj [("baseURL", .str "http://localhost:3000/v1"),
      ("apiKey", .str "key")])]
    [("baseURL", .str "http://localhost:3000/v1"), ("apiKey", .str "key")]
    (Or.inl rfl) rfl rfl rfl).1 "http://localhost:3000/v1" rfl (by rfl)
  rw [h]
  rfl

/-! ### Backup restore -/

theorem fsRemove_get_self (fs : FileSys) (p : String) :
    alGet p (fsRemove fs p) = none :=
  alGet_alRemove_self p fs

theorem fsRemove_get_ne {q p : String} (h : q ≠ p) (fs : FileSys) :
    alGet q (fsRemove fs p) = alGet q fs :=
  alGet_alRemove_ne h fs

theorem rbt_get_target {fs : FileSys} {b t : String} (hbt : b ≠ t) {c : String}
    (hb : alGet b fs = some c) :
    alGet t (restore_backup_to_target fs b t) = some c := by
  unfold restore_backup_to_target fsRename
  have hb1 : alGet b (if fsExists fs t = true then fsRemove fs t else fs)
      = some c := by
    split
    · rw [fsRemove_get_ne hbt]
      exact hb
    · exact hb
  show alGet t
      (match alGet b (if fsExists fs t = true then fsRemove fs t else fs) with
        | some c2 => alSet t c2
            (fsRemove (if fsExists fs t = true then fsRemove fs t else fs) b)
        | none => (if fsExists fs t = true then fsRemove fs t else fs))
    = some c
  rw [hb1]
  exact alGet_alSet_self t c _

theorem rbt_get_backup {fs : FileSys} {b t : String} (hbt : b ≠ t) {c : String}
    (hb : alGet b fs = some c) :
    alGet b (restore_backup_to_target fs b t) = none := by
  unfold restore_backup_to_target fsRename
  have hb1 : alGet b (if fsExists fs t = true then fsRemove fs t else fs)
      = some c := by
    split
    · rw [fsRemove_get_ne hbt]
      exact hb
    · exact hb
  show alGet b
      (match alGet b (if fsExists fs t = true then fsRemove fs t else fs) with
        | some c2 => alSet t c2
            (fsRemove (if fsExists fs t = true then fsRemove fs t else fs) b)
        | none => (if fsExists fs t = true then fsRemove fs t else fs))
    = none
  rw [hb1]
  show alGet b (alSet t c
    (fsRemove (if fsExists fs t = true then fsRemove fs t else fs) b)) = none
  rw [alGet_alSet_ne hbt, fsRemove_get_self]

theorem rbt_get_other {q b t : String} (hqb : q ≠ b) (hqt : q ≠ t)
    (fs : FileSys) :
    alGet q (restore_backup_to_target fs b t) = alGet q fs := by
  unfold restore_backup_to_target fsRename
  have hq1 : alGet q (if fsExists fs t = true then fsRemove fs t else fs)
      = alGet q fs := by
    split
    · rw [fsRemove_get_ne hqt]
    · rfl
  show alGet q
      (match alGet b (if fsExists fs t = true then fsRemove fs t else fs) with
        | some c2 => alSet t c2
            (fsRemove (if fsExists fs t = true then fsRemove fs t else fs) b)
        | none => (if fsExists fs t = true then fsRemove fs t else fs))
    = alGet q fs
  cases hb1 : alGet b (if fsExists fs t = true then fsRemove fs t else fs) with
  | none => exact hq1
  | some c =>
      show alGet q (alSet t c
        (fsRemove (if fsExists fs t = true then fsRemove fs t else fs) b))
        = alGet q fs
      rw [alGet_alSet_ne hqt, fsRemove_get_ne hqb, hq1]

theorem restore_one_flag (fs : FileSys) (t bN bO : String) :
    (restore_one fs t bN bO).2 = (fsExists fs bN || fsExists fs bO) := by
  unfold restore_one
  cases h1 : fsExists fs bN with
  | true => rfl
  | false =>
      cases h2 : fsExists fs bO with
      | true => rfl
      | false => rfl

theorem restore_one_get_other {q t bN bO : String} (hqt : q ≠ t) (hqN : q ≠ bN)
    (hqO : q ≠ bO) (fs : FileSys) :
    alGet q (restore_one fs t bN bO).1 = alGet q fs := by
  unfold restore_one
  split
  · exact rbt_get_other hqN hqt fs
  · split
    · exact rbt_get_other hqO hqt fs
    · rfl

theorem restore_one_target_new {fs : FileSys} {t bN : String} (bO : String)
    (hN : fsExists fs bN = true) (hbt : bN ≠ t) :
    alGet t (restore_one fs t bN bO).1 = alGet bN fs ∧
      alGet bN (restore_one fs t bN bO).1 = none := by
  obtain ⟨c, hc⟩ := Option.isSome_iff_exists.mp hN
  unfold restore_one
  rw [if_pos hN]
  exact ⟨by rw [rbt_get_target hbt hc, hc], rbt_get_backup hbt hc⟩

theorem restore_one_target_old {fs : FileSys} {t bO : String} (bN : String)
    (hN : fsExists fs bN = false) (hO : fsExists fs bO = true) (hbt : bO ≠ t) :
    alGet t (restore_one fs t bN bO).1 = alGet bO fs ∧
      alGet bO (restore_one fs t bN bO).1 = none := by
  obtain ⟨c, hc⟩ := Option.isSome_iff_exists.mp hO
  unfold restore_one
  rw [if_neg (by rw [hN]; exact Bool.false_ne_true), if_pos hO]
  exact ⟨by rw [rbt_get_target hbt hc, hc], rbt_get_backup hbt hc⟩

/-- C8: restore fails exactly when no backup (current or legacy suffix)
exists for either managed file; with at least one backup it succeeds (a
partial restore counts), the current suffix is preferred over the legacy
one, and a restore moves the backup's content onto the target and consumes
the backup. -/
theorem restore_spec (fs : FileSys) :
    (resultOk (restore_opencode_config fs) =
      ((fsExists fs (OPENCODE_CONFIG_FILE ++ BACKUP_SUFFIX) ||
        fsExists fs (OPENCODE_CONFIG_FILE ++ OLD_BACKUP_SUFFIX)) ||
       (fsExists fs (ANTIGRAVITY_ACCOUNTS_FILE ++ BACKUP_SUFFIX) ||
        fsExists fs (ANTIGRAVITY_ACCOUNTS_FILE ++ OLD_BACKUP_SUFFIX)))) ∧
    (fsExists fs (OPENCODE_CONFIG_FILE ++ BACKUP_SUFFIX) = true →
      ∃ fs2, restore_opencode_config fs = .ok fs2 ∧
        alGet OPENCODE_CONFIG_FILE fs2
          = alGet (OPENCODE_CONFIG_FILE ++ BACKUP_SUFFIX) fs ∧
        fsExists fs2 (OPENCODE_CONFIG_FILE ++ BACKUP_SUFFIX) = false) ∧
    (fsExists fs (OPENCODE_CONFIG_FILE ++ BACKUP_SUFFIX) = false →
      fsExists fs (OPENCODE_CONFIG_FILE ++ OLD_BACKUP_SUFFIX) = true →
      ∃ fs2, restore_opencode_config fs = .ok fs2 ∧
        alGet OPENCODE_CONFIG_FILE fs2
          = alGet (OPENCODE_CONFIG_FILE ++ OLD_BACKUP_SUFFIX) fs ∧
        fsExists fs2 (OPENCODE_CONFIG_FILE ++ OLD_BACKUP_SUFFIX) = false) ∧
    (fsExists fs (ANTIGRAVITY_ACCOUNTS_FILE ++ BACKUP_SUFFIX) = true →
      ∃ fs2, restore_opencode_config fs = .ok fs2 ∧
        alGet ANTIGRAVITY_ACCOUNTS_FILE fs2
          = alGet (ANTIGRAVITY_ACCOUNTS_FILE ++ BACKUP_SUFFIX) fs ∧
        fsExists fs2 (ANTIGRAVITY_ACCOUNTS_FILE ++ BACKUP_SUFFIX) = false) ∧
    (fsExists fs (ANTIGRAVITY_ACCOUNTS_FILE ++ BACKUP_SUFFIX) = false →
      fsExists fs (ANTIGRAVITY_ACCOUNTS_FILE ++ OLD_BACKUP_SUFFIX) = true →
      ∃ fs2, restore_opencode_config fs = .ok fs2 ∧
        alGet ANTIGRAVITY_ACCOUNTS_FILE fs2
          = alGet (ANTIGRAVITY_ACCOUNTS_FILE ++ OLD_BACKUP_SUFFIX) fs ∧
        fsExists fs2 (ANTIGRAVITY_ACCOUNTS_FILE ++ OLD_BACKUP_SUFFIX) = false) := by
  have hpres1 : ∀ q, q ≠ OPENCODE_CONFIG_FILE →
      q ≠ OPENCODE_CONFIG_FILE ++ BACKUP_SUFFIX →
      q ≠ OPENCODE_CONFIG_FILE ++ OLD_BACKUP_SUFFIX →
      alGet q (restore_one fs OPENCODE_CONFIG_FILE
        (OPENCODE_CONFIG_FILE ++ BACKUP_SUFFIX)
        (OPENCODE_CONFIG_FILE ++ OLD_BACKUP_SUFFIX)).1 = alGet q fs :=
    fun q h1 h2 h3 => restore_one_get_other h1 h2 h3 fs
  have habN : fsExists (restore_one fs OPENCODE_CONFIG_FILE
      (OPENCODE_CONFIG_FILE ++ BACKUP_SUFFIX)
      (OPENCODE_CONFIG_FILE ++ OLD_BACKUP_SUFFIX)).1
      (ANTIGRAVITY_ACCOUNTS_FILE ++ BACKUP_SUFFIX)
      = fsExists fs (ANTIGRAVITY_ACCOUNTS_FILE ++ BACKUP_SUFFIX) := by
    unfold fsExists
    rw [hpres1 _ (by decide) (by decide) (by decide)]
  have habO : fsExists (restore_one fs OPENCODE_CONFIG_FILE
      (OPENCODE_CONFIG_FILE ++ BACKUP_SUFFIX)
      (OPENCODE_CONFIG_FILE ++ OLD_BACKUP_SUFFIX)).1
      (ANTIGRAVITY_ACCOUNTS_FILE ++ OLD_BACKUP_SUFFIX)
      = fsExists fs (ANTIGRAVITY_ACCOUNTS_FILE ++ OLD_BACKUP_SUFFIX) := by
    unfold fsExists
    rw [hpres1 _ (by decide) (by decide) (by decide)]
  have hflag : ((restore_one fs OPENCODE_CONFIG_FILE
        (OPENCODE_CONFIG_FILE ++ BACKUP_SUFFIX)
        (OPENCODE_CONFIG_FILE ++ OLD_BACKUP_SUFFIX)).2 ||
      (restore_one (restore_one fs OPENCODE_CONFIG_FILE
          (OPENCODE_CONFIG_FILE ++ BACKUP_SUFFIX)
          (OPENCODE_CONFIG_FILE ++ OLD_BACKUP_SUFFIX)).1
        ANTIGRAVITY_ACCOUNTS_FILE
        (ANTIGRAVITY_ACCOUNTS_FILE ++ BACKUP_SUFFIX)
        (ANTIGRAVITY_ACCOUNTS_FILE ++ OLD_BACKUP_SUFFIX)).2)
      = ((fsExists fs (OPENCODE_CONFIG_FILE ++ BACKUP_SUFFIX) ||
          fsExists fs (OPENCODE_CONFIG_FILE ++ OLD_BACKUP_SUFFIX)) ||
         (fsExists fs (ANTIGRAVITY_ACCOUNTS_FILE ++ BACKUP_SUFFIX) ||
          fsExists fs (ANTIGRAVITY_ACCOUNTS_FILE ++ OLD_BACKUP_SUFFIX))) := by
    rw [restore_one_flag, restore_one_flag, habN, habO]
  have hres : restore_opencode_config fs =
      if ((fsExists fs (OPENCODE_CONFIG_FILE ++ BACKUP_SUFFIX) ||
          fsExists fs (OPENCODE_CONFIG_FILE ++ OLD_BACKUP_SUFFIX)) ||
         (fsExists fs (ANTIGRAVITY_ACCOUNTS_FILE ++ BACKUP_SUFFIX) ||
          fsExists fs (ANTIGRAVITY_ACCOUNTS_FILE ++ OLD_BACKUP_SUFFIX))) = true
      then .ok (restore_one (restore_one fs OPENCODE_CONFIG_FILE
          (OPENCODE_CONFIG_FILE ++ BACKUP_SUFFIX)
          (OPENCODE_CONFIG_FILE ++ OLD_BACKUP_SUFFIX)).1
        ANTIGRAVITY_ACCOUNTS_FILE
        (ANTIGRAVITY_ACCOUNTS_FILE ++ BACKUP_SUFFIX)
        (ANTIGRAVITY_ACCOUNTS_FILE ++ OLD_BACKUP_SUFFIX)).1
      else .error "No backup files found" := by
    show (if ((restore_one fs OPENCODE_CONFIG_FILE
          (OPENCODE_CONFIG_FILE ++ BACKUP_SUFFIX)
          (OPENCODE_CONFIG_FILE ++ OLD_BACKUP_SUFFIX)).2 ||
        (restore_one (restore_one fs OPENCODE_CONFIG_FILE
            (OPENCODE_CONFIG_FILE ++ BACKUP_SUFFIX)
            (OPENCODE_CONFIG_FILE ++ OLD_BACKUP_SUFFIX)).1
          ANTIGRAVITY_ACCOUNTS_FILE
          (ANTIGRAVITY_ACCOUNTS_FILE ++ BACKUP_SUFFIX)
          (ANTIGRAVITY_ACCOUNTS_FILE ++ OLD_BACKUP_SUFFIX)).2) = true
      then Except.ok (restore_one (restore_one fs OPENCODE_CONFIG_FILE
          (OPENCODE_CONFIG_FILE ++ BACKUP_SUFFIX)
          (OPENCODE_CONFIG_FILE ++ OLD_BACKUP_SUFFIX)).1
        ANTIGRAVITY_ACCOUNTS_FILE
        (ANTIGRAVITY_ACCOUNTS_FILE ++ BACKUP_SUFFIX)
        (ANTIGRAVITY_ACCOUNTS_FILE ++ OLD_BACKUP_SUFFIX)).1
      else Except.error "No backup files found") = _
    rw [hflag]
  refine ⟨?_, ?_, ?_, ?_, ?_⟩
  · rw [hres]
    cases hb : ((fsExists fs (OPENCODE_CONFIG_FILE ++ BACKUP_SUFFIX) ||
        fsExists fs (OPENCODE_CONFIG_FILE ++ OLD_BACKUP_SUFFIX)) ||
       (fsExists fs (ANTIGRAVITY_ACCOUNTS_FILE ++ BACKUP_SUFFIX) ||
        fsExists fs (ANTIGRAVITY_ACCOUNTS_FILE ++ OLD_BACKUP_SUFFIX))) with
    | true => rfl
    | false => rfl
  · intro h1
    have hOr : ((fsExists fs (OPENCODE_CONFIG_FILE ++ BACKUP_SUFFIX) ||
        fsExists fs (OPENCODE_CONFIG_FILE ++ OLD_BACKUP_SUFFIX)) ||
       (fsExists fs (ANTIGRAVITY_ACCOUNTS_FILE ++ BACKUP_SUFFIX) ||
        fsExists fs (ANTIGRAVITY_ACCOUNTS_FILE ++ OLD_BACKUP_SUFFIX))) = true := by
      rw [h1]
      rfl
    refine ⟨_, by rw [hres, if_pos hOr], ?_, ?_⟩
    · rw [restore_one_get_other (by decide) (by decide) (by decide)]
      exact (restore_one_target_new _ h1 (by decide)).1
    · show (alGet (OPENCODE_CONFIG_FILE ++ BACKUP_SUFFIX) _).isSome = false
      rw [restore_one_get_other (by decide) (by decide) (by decide),
        (restore_one_target_new _ h1 (by decide)).2]
      rfl
  · intro h1 h2
    have hOr : ((fsExists fs (OPENCODE_CONFIG_FILE ++ BACKUP_SUFFIX) ||
        fsExists fs (OPENCODE_CONFIG_FILE ++ OLD_BACKUP_SUFFIX)) ||
       (fsExists fs (ANTIGRAVITY_ACCOUNTS_FILE ++ BACKUP_SUFFIX) ||
        fsExists fs (ANTIGRAVITY_ACCOUNTS_FILE ++ OLD_BACKUP_SUFFIX))) = true := by
      rw [h1, h2]
      rfl
    refine ⟨_, by rw [hres, if_pos hOr], ?_, ?_⟩
    · rw [restore_one_get_other (by decide) (by decide) (by decide)]
      exact (restore_one_target_old _ h1 h2 (by decide)).1
    · show (alGet (OPENCODE_CONFIG_FILE ++ OLD_BACKUP_SUFFIX) _).isSome = false
      rw [restore_one_get_other (by decide) (by decide) (by decide),
        (restore_one_target_old _ h1 h2 (by decide)).2]
      rfl
  · intro h3
    have hN2 : fsExists (restore_one fs OPENCODE_CONFIG_FILE
        (OPENCODE_CONFIG_FILE ++ BACKUP_SUFFIX)
        (OPENCODE_CONFIG_FILE ++ OLD_BACKUP_SUFFIX)).1
        (ANTIGRAVITY_ACCOUNTS_FILE ++ BACKUP_SUFFIX) = true := by
      rw [habN]
      exact h3
    have hOr : ((fsExists fs (OPENCODE_CONFIG_FILE ++ BACKUP_SUFFIX) ||
        fsExists fs (OPENCODE_CONFIG_FILE ++ OLD_BACKUP_SUFFIX)) ||
       (fsExists fs (ANTIGRAVITY_ACCOUNTS_FILE ++ BACKUP_SUFFIX) ||
        fsExists fs (ANTIGRAVITY_ACCOUNTS_FILE ++ OLD_BACKUP_SUFFIX))) = true := by
      rw [h3]
      cases fsExists fs (OPENCODE_CONFIG_FILE ++ BACKUP_SUFFIX) <;>
        cases fsExists fs (OPENCODE_CONFIG_FILE ++ OLD_BACKUP_SUFFIX) <;> rfl
    refine ⟨_, by rw [hres, if_pos hOr], ?_, ?_⟩
    · rw [(restore_one_target_new _ hN2 (by decide)).1]
      exact hpres1 _ (by decide) (by decide) (by decide)
    · show (alGet (ANTIGRAVITY_ACCOUNTS_FILE ++ BACKUP_SUFFIX) _).isSome = false
      rw [(restore_one_target_new _ hN2 (by decide)).2]
      rfl
  · intro h3 h4
    have hN2 : fsExists (restore_one fs OPENCODE_CONFIG_FILE
        (OPENCODE_CONFIG_FILE ++ BACKUP_SUFFIX)
        (OPENCODE_CONFIG_FILE ++ OLD_BACKUP_SUFFIX)).1
        (ANTIGRAVITY_ACCOUNTS_FILE ++ BACKUP_SUFFIX) = false := by
      rw [habN]
      exact h3
    have hO2 : fsExists (restore_one fs OPENCODE_CONFIG_FILE
        (OPENCODE_CONFIG_FILE ++ BACKUP_SUFFIX)
        (OPENCODE_CONFIG_FILE ++ OLD_BACKUP_SUFFIX)).1
        (ANTIGRAVITY_ACCOUNTS_FILE ++ OLD_BACKUP_SUFFIX) = true := by
      rw [habO]
      exact h4
    have hOr : ((fsExists fs (OPENCODE_CONFIG_FILE ++ BACKUP_SUFFIX) ||
        fsExists fs (OPENCODE_CONFIG_FILE ++ OLD_BACKUP_SUFFIX)) ||
       (fsExists fs (ANTIGRAVITY_ACCOUNTS_FILE ++ BACKUP_SUFFIX) ||
        fsExists fs (ANTIGRAVITY_ACCOUNTS_FILE ++ OLD_BACKUP_SUFFIX))) = true := by
      rw [h4]
      cases fsExists fs (OPENCODE_CONFIG_FILE ++ BACKUP_SUFFIX) <;>
        cases fsExists fs (OPENCODE_CONFIG_FILE ++ OLD_BACKUP_SUFFIX) <;>
          cases fsExists fs (ANTIGRAVITY_ACCOUNTS_FILE ++ BACKUP_SUFFIX) <;> rfl
    refine ⟨_, by rw [hres, if_pos hOr], ?_, ?_⟩
    · rw [(restore_one_target_old _ hN2 hO2 (by decide)).1]
      exact hpres1 _ (by decide) (by decide) (by decide)
    · show (alGet (ANTIGRAVITY_ACCOUNTS_FILE ++ OLD_BACKUP_SUFFIX) _).isSome = false
      rw [(restore_one_target_old _ hN2 hO2 (by decide)).2]
      rfl

/-- Witness for C8: a file system holding only the current-suffix config
backup restores it onto the config path and consumes it. -/
theorem restore_spec_witness :
    ∃ fs2, restore_opencode_config
        [(OPENCODE_CONFIG_FILE ++ BACKUP_SUFFIX, "data")] = .ok fs2 ∧
      alGet OPENCODE_CONFIG_FILE fs2
        = alGet (OPENCODE_CONFIG_FILE ++ BACKUP_SUFFIX)
            [(OPENCODE_CONFIG_FILE ++ BACKUP_SUFFIX, "data")] ∧
      fsExists fs2 (OPENCODE_CONFIG_FILE ++ BACKUP_SUFFIX) = false :=
  (restore_spec [(OPENCODE_CONFIG_FILE ++ BACKUP_SUFFIX, "data")]).2.1 (by rfl)

/-- Witness for C7: reconciling one enabled account against a stale
`activeIndex = 7` clamps it to 0. -/
theorem active_index_clamped_witness :
    (sync_accounts_core [] 7 []
        [{ email := "e@x", refreshToken := "r", projectId := none,
           lastUsed := 5, disabled := false, proxyDisabled := false }]
        100).activeIndex
      = if (0 : Int) < 1 then max 0 (min 7 (1 - 1)) else 0 :=
  (active_index_clamped [] 7 []
    [{ email := "e@x", refreshToken := "r", projectId := none,
       lastUsed := 5, disabled := false, proxyDisabled := false }]
    100 1 (by rfl)).1

end OpencodeSync
